import Mathlib

/-!
Verification of the wxMaxima `MathParser` tree builder (src/MathParser.cpp,
src/Cell.h) against its natural-language specification.

The C++ sources are shallowly embedded below.  XML input nodes mirror
`wxXmlNode` (first-child / next-sibling links); parser results use an
explicit `PRes` wrapper where `PRes.crash` marks a C++ null-pointer
dereference.  Cell chains (`m_next` sibling lists) are Lean lists; the
position of the builder's running `cell` pointer is tracked explicitly so
the imperative loop of `MathParser::ParseTag` is reproduced step by step.
-/

set_option maxHeartbeats 1000000
set_option linter.unnecessarySeqFocus false
set_option linter.unreachableTactic false
set_option linter.unusedTactic false
set_option linter.unusedVariables false

namespace MathParserModel

/-- Mirrors wxXmlNodeType as used by the parser: `wxXML_ELEMENT_NODE`
versus text/content nodes (any other type falls into the text branch of
`MathParser::ParseTag`). -/
inductive XmlNodeType : Type where
  | element : XmlNodeType
  | textNode : XmlNodeType
deriving DecidableEq, Repr

/-- Mirrors `wxXmlNode`: type, tag name, attributes, text content, first
child (`GetChildren`) and next sibling (`GetNext`), exactly the accessors
`MathParser.cpp` uses. -/
inductive XmlNode : Type where
  | mk : XmlNodeType → String → List (String × String) → String →
      Option XmlNode → Option XmlNode → XmlNode
deriving Repr

/-- wxXmlNode::GetType. -/
def XmlNode.getType : XmlNode → XmlNodeType
  | .mk t _ _ _ _ _ => t

/-- wxXmlNode::GetName. -/
def XmlNode.getName : XmlNode → String
  | .mk _ n _ _ _ _ => n

/-- The attribute list of a node. -/
def XmlNode.attrs : XmlNode → List (String × String)
  | .mk _ _ a _ _ _ => a

/-- wxXmlNode::GetContent. -/
def XmlNode.getContent : XmlNode → String
  | .mk _ _ _ c _ _ => c

/-- wxXmlNode::GetChildren (first child). -/
def XmlNode.getChildren : XmlNode → Option XmlNode
  | .mk _ _ _ _ ch _ => ch

/-- wxXmlNode::GetNext (next sibling). -/
def XmlNode.getNext : XmlNode → Option XmlNode
  | .mk _ _ _ _ _ nx => nx

/-- Replace the next-sibling link of a node (used only to state theorems
about sibling independence). -/
def XmlNode.setNext : XmlNode → Option XmlNode → XmlNode
  | .mk t n a c ch _, nx => .mk t n a c ch nx

/-- Attribute lookup, mirroring the two-argument
`wxXmlNode::GetAttribute(name, default)`. -/
def XmlNode.getAttr (nd : XmlNode) (key dflt : String) : String :=
  match nd.attrs.find? (fun p => p.1 = key) with
  | some p => p.2
  | none => dflt

/-- Attribute lookup mirroring `wxXmlNode::GetAttribute(name, &value)`
which reports presence. -/
def XmlNode.getAttrOpt (nd : XmlNode) (key : String) : Option String :=
  match nd.attrs.find? (fun p => p.1 = key) with
  | some p => some p.2
  | none => none

/-- Number of XML nodes in a sibling chain (used to phrase "fewer than the
required number of children"). -/
def chainLength : Option XmlNode → Nat
  | none => 0
  | some nd => 1 + chainLength nd.getNext
termination_by n => sizeOf n
decreasing_by
  cases nd with
  | mk t n a c ch nx => cases nx <;> simp [XmlNode.getNext] <;> omega

theorem sizeOf_getChildren_lt (nd : XmlNode) : sizeOf nd.getChildren < sizeOf nd := by
  cases nd with
  | mk t n a c ch nx => simp [XmlNode.getChildren] <;> omega

theorem sizeOf_getNext_lt (nd : XmlNode) : sizeOf nd.getNext < sizeOf nd := by
  cases nd with
  | mk t n a c ch nx => simp [XmlNode.getNext] <;> omega

theorem sizeOf_lt_of_children {nd c : XmlNode} (h : nd.getChildren = some c) :
    sizeOf c < sizeOf nd := by
  have := sizeOf_getChildren_lt nd
  rw [h] at this
  simp at this
  omega

theorem sizeOf_lt_of_next {nd c : XmlNode} (h : nd.getNext = some c) :
    sizeOf c < sizeOf nd := by
  have := sizeOf_getNext_lt nd
  rw [h] at this
  simp at this
  omega

@[simp] theorem getType_mk (t n a c ch nx) :
    (XmlNode.mk t n a c ch nx).getType = t := rfl

@[simp] theorem getName_mk (t n a c ch nx) :
    (XmlNode.mk t n a c ch nx).getName = n := rfl

@[simp] theorem attrs_mk (t n a c ch nx) :
    (XmlNode.mk t n a c ch nx).attrs = a := rfl

@[simp] theorem getContent_mk (t n a c ch nx) :
    (XmlNode.mk t n a c ch nx).getContent = c := rfl

@[simp] theorem getChildren_mk (t n a c ch nx) :
    (XmlNode.mk t n a c ch nx).getChildren = ch := rfl

@[simp] theorem getNext_mk (t n a c ch nx) :
    (XmlNode.mk t n a c ch nx).getNext = nx := rfl

@[simp] theorem setNext_mk (t n a c ch nx nx') :
    (XmlNode.mk t n a c ch nx).setNext nx' = XmlNode.mk t n a c ch nx' := rfl

@[simp] theorem getAttr_mk (t n a c ch nx key dflt) :
    (XmlNode.mk t n a c ch nx).getAttr key dflt =
      (match a.find? (fun p => p.1 = key) with
       | some p => p.2
       | none => dflt) := rfl

@[simp] theorem getAttrOpt_mk (t n a c ch nx key) :
    (XmlNode.mk t n a c ch nx).getAttrOpt key =
      (match a.find? (fun p => p.1 = key) with
       | some p => some p.2
       | none => none) := rfl

theorem chainLength_none : chainLength none = 0 := by
  rw [chainLength]

theorem chainLength_some (nd : XmlNode) :
    chainLength (some nd) = 1 + chainLength nd.getNext := by
  rw [chainLength]

theorem chainLength_eq_zero {n? : Option XmlNode} (h : chainLength n? = 0) :
    n? = none := by
  cases n? with
  | none => rfl
  | some nd => rw [chainLength_some] at h; omega

/-! ### Cell data model (Cell.h and the cell variants built by MathParser) -/

/-- The `MC_TYPE_*` enumeration from Cell.h, with its concrete values. -/
def MC_TYPE_DEFAULT : Int := 0
def MC_TYPE_MAIN_PROMPT : Int := 1
def MC_TYPE_PROMPT : Int := 2
def MC_TYPE_LABEL : Int := 3
def MC_TYPE_INPUT : Int := 4
def MC_TYPE_ERROR : Int := 5
def MC_TYPE_TEXT : Int := 6
def MC_TYPE_SUBSECTION : Int := 7
def MC_TYPE_SECTION : Int := 8
def MC_TYPE_TITLE : Int := 9
def MC_TYPE_IMAGE : Int := 10
def MC_TYPE_SLIDE : Int := 11
def MC_TYPE_GROUP : Int := 12

/-- Referenced by MathParser.cpp (ParseEditorTag) but absent from the
excerpted Cell.h enumeration; modelled as the next value.  Only its
distinctness from the other constants matters. -/
def MC_TYPE_SUBSUBSECTION : Int := 13

/-- The `TS_*` text styles used by MathParser (TextStyle.h is not part of
the excerpt; only the distinctness of the constants is used, so they are
modelled as an enumeration). -/
inductive TextStyle : Type where
  | tsDefault | tsVariable | tsNumber | tsError | tsGreekConstant
  | tsSpecialConstant | tsFunction | tsLabel | tsUserlabel | tsString
deriving DecidableEq, Repr

/-- `FracCell::FC_*` fraction sub-styles. -/
inductive FracStyle : Type where
  | fcNormal | fcChoose | fcDiff
deriving DecidableEq, Repr

/-- The `GC_TYPE_*` group-cell categories (GroupCell.h is not part of the
excerpt; only distinctness is used). -/
inductive GType : Type where
  | gcCode | gcImage | gcPagebreak | gcText | gcTitle | gcSection
  | gcSubsection | gcSubsubsection
deriving DecidableEq, Repr

/-- The closed set of cell variants allocated by MathParser. -/
inductive CellKind : Type where
  | textCell | frac | expt | subCell | subsup | atCell | funCell | diff
  | sqrt | absCell | conj | paren | limit | sum | intCell | matr
  | img | slide | editor | group
deriving DecidableEq, Repr

/-- The non-recursive per-cell data: the Cell.h base fields the parser
writes, plus the variant-specific flags set by the individual handlers. -/
structure CellFields : Type where
  value : String := ""
  ctype : Int := MC_TYPE_DEFAULT
  style : TextStyle := .tsDefault
  highlight : Bool := false
  hidden : Bool := false
  forceBreakLine : Bool := false
  breakLine : Bool := false
  altCopy : Option String := none
  exptFlag : Bool := false
  fracStyle : FracStyle := .fcNormal
  isMatrix : Bool := false
  prodStyle : Bool := false
  intDef : Bool := false
  printParen : Bool := true
  special : Bool := false
  inference : Bool := false
  colNames : Bool := false
  rowNames : Bool := false
  rowLens : List Nat := []
  delFlag : Bool := false
  drawRect : Bool := true
  frameRate : Option Int := none
  images : List String := []
  gtype : Option GType := none
  gHidden : Bool := false
deriving DecidableEq, Repr

/-- A cell: variant tag, base/variant fields, and the owned child slots
(each slot the head of an owned sibling chain, represented as a list; an
empty list is a NULL child).  Slot order per kind: frac [num, denom];
expt [base, power]; subCell [base, index]; subsup [base, index, power];
atCell [base, index]; funCell [name, arg]; diff [diffpart, base];
sqrt/absCell/conj/paren [inner]; limit [name, under, base];
sum [under, over, base]; intCell [under, over, base, var] (definite) or
[base, var] (indefinite); matr: one slot per entry in row-major order;
group [output chain, folded chain]. -/
inductive Cell : Type where
  | mk : CellKind → CellFields → List (List Cell) → Cell

def Cell.kind : Cell → CellKind
  | .mk k _ _ => k

def Cell.fields : Cell → CellFields
  | .mk _ f _ => f

def Cell.slots : Cell → List (List Cell)
  | .mk _ _ s => s

def Cell.value (c : Cell) : String := c.fields.value
def Cell.altCopy (c : Cell) : Option String := c.fields.altCopy
def Cell.gtype (c : Cell) : Option GType := c.fields.gtype

/-- Apply an update to the fields of a cell (the model of the various
field-writing setters of Cell.h). -/
def Cell.mapFields : Cell → (CellFields → CellFields) → Cell
  | .mk k f s, g => .mk k (g f) s

/-- `Cell::ForceBreakLine(true)`: sets both `m_forceBreakLine` and
`m_breakLine` (Cell.h line 144). -/
def Cell.forceBreakLine (c : Cell) : Cell :=
  c.mapFields (fun f => { f with forceBreakLine := true, breakLine := true })

/-- Result of running a piece of the C++ parser: `crash` marks a
null-pointer dereference (undefined behaviour that aborts the program). -/
inductive PRes (α : Type) : Type where
  | crash : PRes α
  | ok : α → PRes α
deriving DecidableEq, Repr

/-- The configuration store collaborator: the two policy integers read by
the parser (`none` means the key is absent and `wxConfig::Read` leaves
the caller's default in place). -/
structure Config : Type where
  displayedDigits : Option Int := none
  showLength : Option Int := none
deriving DecidableEq, Repr

/-- The parser state threaded through recursive calls: `m_ParserStyle`,
`m_FracStyle`, `m_highlight` (all saved/restored around sub-calls in the
source, hence modelled as a read-only context), whether `m_fileSystem`
is non-NULL, and the configuration store. -/
structure PCtx : Type where
  pstyle : Int := MC_TYPE_DEFAULT
  fracStyle : FracStyle := .fcNormal
  highlight : Bool := false
  hasFS : Bool := false
  cfg : Config := {}
deriving DecidableEq, Repr

/-! ### String helpers (wxString operations used by the parser) -/

/-- Character-wise map over a string (wxString::Replace with single-char
pattern and single-char replacement). -/
def strMap (f : Char → Char) (s : String) : String :=
  String.mk (s.data.map f)

/-- wxString::Left(n): the first n characters. -/
def strLeft (s : String) (n : Nat) : String :=
  String.mk (s.data.take n)

/-- wxString::Right(n): the last n characters. -/
def strRight (s : String) (n : Nat) : String :=
  String.mk (s.data.drop (s.data.length - n))

/-- The Unicode minus sign U+2212 substituted for `-` by ParseText. -/
def minusChar : Char := Char.ofNat 0x2212

/-- wxString::ToLong: an optional sign followed by at least one decimal
digit (the model keeps to the plain decimal case the parser feeds it). -/
def digitsVal : List Char → Option Nat
  | [] => none
  | [c] => if c.isDigit then some (c.toNat - 48) else none
  | c :: rest =>
    if c.isDigit then
      match digitsVal rest with
      | some v => some ((c.toNat - 48) * 10 ^ rest.length + v)
      | none => none
    else none

/-- wxString::ToLong on a whole string. -/
def parseLong (s : String) : Option Int :=
  match s.data with
  | '-' :: rest => (digitsVal rest).map (fun v => -(v : Int))
  | l => (digitsVal l).map (fun v => (v : Int))

/-! ### Leaf-cell constructors (MathParser.cpp lines 392-451, 186-221) -/

/-- A freshly constructed TextCell before any setter runs (the TextCell
constructor is not part of the excerpt; the claims depend only on the
value being empty, which `TextCell::TextCell` guarantees by setting
`m_text = wxEmptyString`). -/
def newTextCell : Cell := Cell.mk .textCell {} []

/-- `TextCell::TextCell(wxString)`: a text cell holding the given text. -/
def textCellOf (s : String) : Cell := Cell.mk .textCell { value := s } []

/-- The digit cutoff computation of MathParser::ParseText (lines
405-411): `m_displayedDigits = 100`, overridden by the configuration key
`displayedDigits` when present, then clamped to at least 10. -/
def displayedDigitsOf (cfgDigits : Option Int) : Int :=
  let dd := cfgDigits.getD 100
  if dd < 10 then 10 else dd

/-- MathParser::ParseText (lines 392-430).  The node argument is the node
whose `GetContent` supplies the text (ParseTag passes `GetChildren()` of
the tag node).  A NULL node or empty content leaves the fresh TextCell
untouched.  Otherwise `-` is replaced by the Unicode minus sign, a
number-styled string longer than the digit cutoff is truncated to
`left` head characters, a `[%i digits]` marker, and `left` tail
characters, and the type/style/highlight/value setters run. -/
def parseTextStr (ctx : PCtx) (content : String) (style : TextStyle) : Cell :=
  if content = "" then newTextCell
  else
    let str := strMap (fun c => if c = '-' then minusChar else c) content
    let str :=
      if style = .tsNumber then
        let dd := displayedDigitsOf ctx.cfg.displayedDigits
        if (str.length : Int) > dd then
          let left : Int := dd / 3
          let left : Int := if left > 30 then 30 else left
          strLeft str left.toNat ++
            ("[" ++ toString ((str.length : Int) - 2 * left) ++ " digits]") ++
            strRight str left.toNat
        else str
      else str
    Cell.mk .textCell
      { value := str,
        ctype := if style ≠ .tsError then ctx.pstyle else MC_TYPE_ERROR,
        style := style,
        highlight := ctx.highlight } []

/-- MathParser::ParseText on a node: a NULL node behaves like empty
content (both leave the fresh TextCell untouched). -/
def parseText (ctx : PCtx) (n? : Option XmlNode) (style : TextStyle) : Cell :=
  match n? with
  | none => newTextCell
  | some nd => parseTextStr ctx nd.getContent style

/-- MathParser::ParseCharCode (lines 432-451): the content, when it
parses as a long, is replaced by the single character of that code
(the `%c` format; out-of-range codes are left to `Char.ofNat`'s total
behaviour).  A NULL node or empty content leaves the fresh TextCell
untouched. -/
def parseCharCodeStr (ctx : PCtx) (content : String) (style : TextStyle) : Cell :=
  if content = "" then newTextCell
  else
    let str :=
      match parseLong content with
      | some code => String.mk [Char.ofNat code.toNat]
      | none => content
    Cell.mk .textCell
      { value := str,
        ctype := ctx.pstyle,
        style := style,
        highlight := ctx.highlight } []

/-- MathParser::ParseCharCode on a node. -/
def parseCharCode (ctx : PCtx) (n? : Option XmlNode) (style : TextStyle) : Cell :=
  match n? with
  | none => newTextCell
  | some nd => parseCharCodeStr ctx nd.getContent style

/-- wxXmlNode::GetNodeContent: the content of the first text-typed child
(empty when there is none). -/
def findTextChild : Option XmlNode → String
  | none => ""
  | some (.mk t _ _ ct _ nx) =>
    if t = .textNode then ct else findTextChild nx

def getNodeContent (nd : XmlNode) : String := findTextChild nd.getChildren

/-- The line-joining loop of MathParser::ParseEditorTag (lines 204-218):
every child named `line` contributes its node content, separated by a
newline once the accumulated text is nonempty. -/
def editorJoin : Option XmlNode → String → String
  | none, acc => acc
  | some (.mk t n a ct ch nx), acc =>
    let acc :=
      if n = "line" then
        (if acc ≠ "" then acc ++ "\n" else acc) ++
          getNodeContent (.mk t n a ct ch nx)
      else acc
    editorJoin nx acc

/-- MathParser::ParseEditorTag (lines 186-221): an EditorCell whose type
follows the `type` attribute (default `input`) and whose value is the
newline-joined `line` children.  (The EditorCell constructor is not part
of the excerpt; an unmatched type attribute leaves the constructed
default, modelled as `MC_TYPE_DEFAULT`.) -/
def parseEditorTag (nd : XmlNode) : Cell :=
  let t := nd.getAttr "type" "input"
  let ty : Int :=
    if t = "input" then MC_TYPE_INPUT
    else if t = "text" then MC_TYPE_TEXT
    else if t = "title" then MC_TYPE_TITLE
    else if t = "section" then MC_TYPE_SECTION
    else if t = "subsection" then MC_TYPE_SUBSECTION
    else if t = "subsubsection" then MC_TYPE_SUBSUBSECTION
    else MC_TYPE_DEFAULT
  Cell.mk .editor { value := editorJoin nd.getChildren "", ctype := ty } []

/-! ### The state of MathParser::ParseTag's sibling loop (lines 640-996)

The loop manipulates three pointers: `tmp` (the eventual return value,
head of the chain), `cell` (the running pointer, advanced by
`cell = cell->m_next`), and the chain itself, grown by
`cell->AppendCell(...)`.  Because `cell` is advanced only one step per
iteration while `AppendCell` attaches at the end of the chain, `cell` can
fall off the end (becoming NULL); a later successful node then starts a
fresh chain that is *not* linked to the one `tmp` heads.  The state below
tracks this faithfully: `main` is the chain `tmp` heads, `cur` is such a
detached chain, and `pos` is the position of `cell` in either. -/

/-- Position of the loop's `cell` pointer. -/
inductive Pos : Type where
  | null : Pos
  | inMain : Nat → Pos
  | inCur : Nat → Pos
deriving DecidableEq, Repr

/-- Loop state of one ParseTag invocation. -/
structure LoopSt : Type where
  main : List Cell := []
  tmpSet : Bool := false
  cur : List Cell := []
  pos : Pos := .null
  warning : Bool := true
  ownWarns : Nat := 0
  subWarns : Nat := 0

/-- Set the alternate copy text on the cell at a given chain position
(`cell->SetAltCopyText(altCopy)`, Cell.h line 277). -/
def setAltCopyAt : List Cell → Nat → String → List Cell
  | [], _, _ => []
  | c :: r, 0, s => c.mapFields (fun f => { f with altCopy := some s }) :: r
  | c :: r, n + 1, s => c :: setAltCopyAt r n s

/-- The dispatch step of one loop iteration: the handler result `r`
(a chain, empty for NULL) is either assigned to the NULL `cell` pointer
or appended at the end of the chain `cell` lives in
(`MathCell::AppendCell` is not part of the excerpt; modelled from the
spec: append at the end of the current chain, a no-op for a NULL
argument, which the empty list gives for free).  `w` is the number of
warnings raised inside the handler's nested recursive calls. -/
def stepDispatch (st : LoopSt) (r : List Cell) (w : Nat) : LoopSt :=
  match st.pos with
  | .null =>
    { st with cur := r, pos := if r.isEmpty then .null else .inCur 0,
              subWarns := st.subWarns + w }
  | .inMain _ => { st with main := st.main ++ r, subWarns := st.subWarns + w }
  | .inCur _ => { st with cur := st.cur ++ r, subWarns := st.subWarns + w }

/-- Lines 971-985: if `cell` is non-NULL, either capture it as `tmp`
(first produced cell) or advance it one link; otherwise raise the
one-shot warning if still armed. -/
def stepAdvance (st : LoopSt) : LoopSt :=
  match st.pos with
  | .null =>
    if st.warning then { st with warning := false, ownWarns := st.ownWarns + 1 }
    else st
  | .inMain i =>
    if st.tmpSet then
      { st with pos := if i + 1 < st.main.length then .inMain (i + 1) else .null }
    else st
  | .inCur i =>
    if st.tmpSet then
      { st with pos := if i + 1 < st.cur.length then .inCur (i + 1) else .null }
    else
      { st with main := st.cur.drop i, cur := [], tmpSet := true, pos := .inMain 0 }

/-- Lines 987-988: an `altCopy` attribute is written through the `cell`
pointer; when `cell` is NULL this is a null-pointer dereference. -/
def stepAltCopy (nd : XmlNode) (st : LoopSt) : PRes LoopSt :=
  match nd.getAttrOpt "altCopy" with
  | none => .ok st
  | some ac =>
    match st.pos with
    | .null => .crash
    | .inMain i => .ok { st with main := setAltCopyAt st.main i ac }
    | .inCur i => .ok { st with cur := setAltCopyAt st.cur i ac }

/-- Set the exponent flag on the head cell of a chain
(`power->SetExponentFlag()`); the chain must be nonempty at call sites,
callers model the NULL dereference themselves. -/
def setExptFlagHead (c : Cell) : Cell :=
  c.mapFields (fun f => { f with exptFlag := true })

/-- `Cell::GetValue`: the base class returns the empty string (Cell.h
line 209); the TextCell/EditorCell overrides return the stored text.
Modelled from the spec: TextCell "holds a string payload" (section 3),
GroupBlock editable text comes from the input child (section 4.3). -/
def Cell.getValue (c : Cell) : String :=
  match c.kind with
  | .textCell => c.value
  | .editor => c.value
  | _ => ""

/-- Accumulator for the GroupCell under construction in ParseCellTag:
editable content (`SetEditableContent`), output chain (`AppendOutput`)
and folded subtree (`HideTree`).  These GroupCell methods are not part
of the excerpt; modelled from the spec (section 4.3). -/
structure GroupAcc : Type where
  editable : String := ""
  output : List Cell := []
  folded : List Cell := []

/-- Assemble the finished GroupCell: `group->SetParent(group)` (the
non-owning back-reference, not modelled) and `group->Hide(hide)` run on
every branch (lines 181-182). -/
def mkGroup (gt : GType) (acc : GroupAcc) (hide : Bool) : Cell :=
  Cell.mk .group
    { value := acc.editable, ctype := MC_TYPE_GROUP, gtype := some gt,
      gHidden := hide }
    [acc.output, acc.folded]

/-! Lexicographic measure helpers for the mutual recursion below. -/

theorem lexNext (nd : XmlNode) (i j : Nat) :
    Prod.Lex (fun a₁ a₂ : Nat => a₁ < a₂) (fun a₁ a₂ : Nat => a₁ < a₂)
      (sizeOf nd.getNext, i) (sizeOf (some nd), j) := by
  apply Prod.Lex.left
  have h1 := sizeOf_getNext_lt nd
  have h2 : sizeOf (some nd) = 1 + sizeOf nd := by simp
  omega

theorem lexChildrenSome (nd : XmlNode) (i j : Nat) :
    Prod.Lex (fun a₁ a₂ : Nat => a₁ < a₂) (fun a₁ a₂ : Nat => a₁ < a₂)
      (sizeOf nd.getChildren, i) (sizeOf (some nd), j) := by
  apply Prod.Lex.left
  have h1 := sizeOf_getChildren_lt nd
  have h2 : sizeOf (some nd) = 1 + sizeOf nd := by simp
  omega

theorem lexChildren (nd : XmlNode) (i j : Nat) :
    Prod.Lex (fun a₁ a₂ : Nat => a₁ < a₂) (fun a₁ a₂ : Nat => a₁ < a₂)
      (sizeOf nd.getChildren, i) (sizeOf nd, j) := by
  apply Prod.Lex.left
  exact sizeOf_getChildren_lt nd

theorem lexNode (nd : XmlNode) (i j : Nat) :
    Prod.Lex (fun a₁ a₂ : Nat => a₁ < a₂) (fun a₁ a₂ : Nat => a₁ < a₂)
      (sizeOf nd, i) (sizeOf (some nd), j) := by
  apply Prod.Lex.left
  have h2 : sizeOf (some nd) = 1 + sizeOf nd := by simp
  omega

mutual

/-- MathParser::ParseFracTag (lines 223-251). -/
def parseFracTag (ctx : PCtx) (nd : XmlNode) : PRes (Option Cell × Nat) :=
  match hc : nd.getChildren with
  | none => .ok (none, 0)
  | some c1 =>
    match parseTag ctx (some c1) false with
    | .crash => .crash
    | .ok (num, _, w1) =>
      match hn : c1.getNext with
      | none => .ok (none, w1)
      | some c2 =>
        match parseTag ctx (some c2) false with
        | .crash => .crash
        | .ok (den, _, w2) =>
          let fs := ctx.fracStyle
          let fs := if nd.getAttr "line" "" = "no" then FracStyle.fcChoose else fs
          let fs := if nd.getAttr "diffstyle" "" = "yes" then FracStyle.fcDiff else fs
          .ok (some (Cell.mk .frac
            { fracStyle := fs, highlight := ctx.highlight,
              style := .tsVariable, ctype := ctx.pstyle } [num, den]), w1 + w2)
termination_by (sizeOf nd, 2)
decreasing_by
  all_goals apply Prod.Lex.left
  · have h := sizeOf_getChildren_lt nd
    rw [hc] at h
    omega
  · have h1 := sizeOf_getNext_lt c1
    rw [hn] at h1
    have h2 := sizeOf_lt_of_children hc
    omega

/-- MathParser::ParseDiffTag (lines 253-274): the first child is parsed
under the `FC_DIFF` fraction style (saved/restored), the second with
`all = true`. -/
def parseDiffTag (ctx : PCtx) (nd : XmlNode) : PRes (Option Cell × Nat) :=
  match hc : nd.getChildren with
  | none => .ok (none, 0)
  | some c1 =>
    match parseTag { ctx with fracStyle := .fcDiff } (some c1) false with
    | .crash => .crash
    | .ok (d, _, w1) =>
      match hn : c1.getNext with
      | none => .ok (none, w1)
      | some c2 =>
        match parseTag ctx (some c2) true with
        | .crash => .crash
        | .ok (base, o2, s2) =>
          .ok (some (Cell.mk .diff
            { ctype := ctx.pstyle, style := .tsVariable } [d, base]),
            w1 + (o2 + s2))
termination_by (sizeOf nd, 2)
decreasing_by
  all_goals apply Prod.Lex.left
  · have h := sizeOf_getChildren_lt nd
    rw [hc] at h
    omega
  · have h1 := sizeOf_getNext_lt c1
    rw [hn] at h1
    have h2 := sizeOf_lt_of_children hc
    omega

/-- MathParser::ParseSupTag (lines 276-298): any attribute marks the
exponent as matrix-styled; `power->SetExponentFlag()` dereferences the
parsed power, a NULL result crashes. -/
def parseSupTag (ctx : PCtx) (nd : XmlNode) : PRes (Option Cell × Nat) :=
  let isMx := !nd.attrs.isEmpty
  match hc : nd.getChildren with
  | none => .ok (none, 0)
  | some c1 =>
    match parseTag ctx (some c1) false with
    | .crash => .crash
    | .ok (base, _, w1) =>
      match hn : c1.getNext with
      | none => .ok (none, w1)
      | some c2 =>
        match parseTag ctx (some c2) false with
        | .crash => .crash
        | .ok ([], _, _) => .crash
        | .ok (p :: ps, _, w2) =>
          .ok (some (Cell.mk .expt
            { isMatrix := isMx, ctype := ctx.pstyle, style := .tsVariable }
            [base, setExptFlagHead p :: ps]), w1 + w2)
termination_by (sizeOf nd, 2)
decreasing_by
  all_goals apply Prod.Lex.left
  · have h := sizeOf_getChildren_lt nd
    rw [hc] at h
    omega
  · have h1 := sizeOf_getNext_lt c1
    rw [hn] at h1
    have h2 := sizeOf_lt_of_children hc
    omega

/-- MathParser::ParseSubSupTag (lines 300-327): base, index, exponent;
index and exponent get the exponent flag (NULL dereference on a NULL
parse result). -/
def parseSubSupTag (ctx : PCtx) (nd : XmlNode) : PRes (Option Cell × Nat) :=
  match hc : nd.getChildren with
  | none => .ok (none, 0)
  | some c1 =>
    match parseTag ctx (some c1) false with
    | .crash => .crash
    | .ok (base, _, w1) =>
      match hn : c1.getNext with
      | none => .ok (none, w1)
      | some c2 =>
        match parseTag ctx (some c2) false with
        | .crash => .crash
        | .ok ([], _, _) => .crash
        | .ok (ix :: ixs, _, w2) =>
          match hn2 : c2.getNext with
          | none => .ok (none, w1 + w2)
          | some c3 =>
            match parseTag ctx (some c3) false with
            | .crash => .crash
            | .ok ([], _, _) => .crash
            | .ok (p :: ps, _, w3) =>
              .ok (some (Cell.mk .subsup
                { ctype := ctx.pstyle, style := .tsVariable }
                [base, setExptFlagHead ix :: ixs, setExptFlagHead p :: ps]),
                w1 + w2 + w3)
termination_by (sizeOf nd, 2)
decreasing_by
  all_goals apply Prod.Lex.left
  all_goals
    first
    | (have h := sizeOf_getChildren_lt nd
       rw [hc] at h
       omega)
    | (have h1 := sizeOf_getNext_lt c1
       rw [hn] at h1
       have h2 := sizeOf_lt_of_children hc
       omega)
    | (have h1 := sizeOf_lt_of_children hc
       have h2 := sizeOf_lt_of_next hn
       have h3 := sizeOf_getNext_lt c2
       rw [hn2] at h3
       omega)

/-- MathParser::ParseSubTag (lines 329-349). -/
def parseSubTag (ctx : PCtx) (nd : XmlNode) : PRes (Option Cell × Nat) :=
  match hc : nd.getChildren with
  | none => .ok (none, 0)
  | some c1 =>
    match parseTag ctx (some c1) false with
    | .crash => .crash
    | .ok (base, _, w1) =>
      match hn : c1.getNext with
      | none => .ok (none, w1)
      | some c2 =>
        match parseTag ctx (some c2) false with
        | .crash => .crash
        | .ok ([], _, _) => .crash
        | .ok (ix :: ixs, _, w2) =>
          .ok (some (Cell.mk .subCell
            { ctype := ctx.pstyle, style := .tsVariable }
            [base, setExptFlagHead ix :: ixs]), w1 + w2)
termination_by (sizeOf nd, 2)
decreasing_by
  all_goals apply Prod.Lex.left
  · have h := sizeOf_getChildren_lt nd
    rw [hc] at h
    omega
  · have h1 := sizeOf_getNext_lt c1
    rw [hn] at h1
    have h2 := sizeOf_lt_of_children hc
    omega

/-- MathParser::ParseAtTag (lines 351-370). -/
def parseAtTag (ctx : PCtx) (nd : XmlNode) : PRes (Option Cell × Nat) :=
  match hc : nd.getChildren with
  | none => .ok (none, 0)
  | some c1 =>
    match parseTag ctx (some c1) false with
    | .crash => .crash
    | .ok (base, _, w1) =>
      match hn : c1.getNext with
      | none => .ok (none, w1)
      | some c2 =>
        match parseTag ctx (some c2) false with
        | .crash => .crash
        | .ok (ix, _, w2) =>
          .ok (some (Cell.mk .atCell
            { highlight := ctx.highlight, ctype := ctx.pstyle,
              style := .tsVariable } [base, ix]), w1 + w2)
termination_by (sizeOf nd, 2)
decreasing_by
  all_goals apply Prod.Lex.left
  · have h := sizeOf_getChildren_lt nd
    rw [hc] at h
    omega
  · have h1 := sizeOf_getNext_lt c1
    rw [hn] at h1
    have h2 := sizeOf_lt_of_children hc
    omega

/-- MathParser::ParseFunTag (lines 372-390). -/
def parseFunTag (ctx : PCtx) (nd : XmlNode) : PRes (Option Cell × Nat) :=
  match hc : nd.getChildren with
  | none => .ok (none, 0)
  | some c1 =>
    match parseTag ctx (some c1) false with
    | .crash => .crash
    | .ok (name, _, w1) =>
      match hn : c1.getNext with
      | none => .ok (none, w1)
      | some c2 =>
        match parseTag ctx (some c2) false with
        | .crash => .crash
        | .ok (arg, _, w2) =>
          .ok (some (Cell.mk .funCell
            { ctype := ctx.pstyle, style := .tsVariable } [name, arg]),
            w1 + w2)
termination_by (sizeOf nd, 2)
decreasing_by
  all_goals apply Prod.Lex.left
  · have h := sizeOf_getChildren_lt nd
    rw [hc] at h
    omega
  · have h1 := sizeOf_getNext_lt c1
    rw [hn] at h1
    have h2 := sizeOf_lt_of_children hc
    omega

/-- MathParser::ParseSqrtTag (lines 453-462): the inner expression is
parsed with `all = true`; the handler never fails. -/
def parseSqrtTag (ctx : PCtx) (nd : XmlNode) : PRes (Option Cell × Nat) :=
  match parseTag ctx nd.getChildren true with
  | .crash => .crash
  | .ok (inner, o, s) =>
    .ok (some (Cell.mk .sqrt
      { ctype := ctx.pstyle, style := .tsVariable, highlight := ctx.highlight }
      [inner]), o + s)
termination_by (sizeOf nd, 2)
decreasing_by
  apply Prod.Lex.left
  have h := sizeOf_getChildren_lt nd
  omega

/-- MathParser::ParseAbsTag (lines 464-473). -/
def parseAbsTag (ctx : PCtx) (nd : XmlNode) : PRes (Option Cell × Nat) :=
  match parseTag ctx nd.getChildren true with
  | .crash => .crash
  | .ok (inner, o, s) =>
    .ok (some (Cell.mk .absCell
      { ctype := ctx.pstyle, style := .tsVariable, highlight := ctx.highlight }
      [inner]), o + s)
termination_by (sizeOf nd, 2)
decreasing_by
  apply Prod.Lex.left
  have h := sizeOf_getChildren_lt nd
  omega

/-- MathParser::ParseConjugateTag (lines 475-484). -/
def parseConjugateTag (ctx : PCtx) (nd : XmlNode) : PRes (Option Cell × Nat) :=
  match parseTag ctx nd.getChildren true with
  | .crash => .crash
  | .ok (inner, o, s) =>
    .ok (some (Cell.mk .conj
      { ctype := ctx.pstyle, style := .tsVariable, highlight := ctx.highlight }
      [inner]), o + s)
termination_by (sizeOf nd, 2)
decreasing_by
  apply Prod.Lex.left
  have h := sizeOf_getChildren_lt nd
  omega

/-- MathParser::ParseParenTag (lines 486-496): any attribute suppresses
the printed parentheses. -/
def parseParenTag (ctx : PCtx) (nd : XmlNode) : PRes (Option Cell × Nat) :=
  match parseTag ctx nd.getChildren true with
  | .crash => .crash
  | .ok (inner, o, s) =>
    .ok (some (Cell.mk .paren
      { ctype := ctx.pstyle, highlight := ctx.highlight, style := .tsVariable,
        printParen := nd.attrs.isEmpty } [inner]), o + s)
termination_by (sizeOf nd, 2)
decreasing_by
  apply Prod.Lex.left
  have h := sizeOf_getChildren_lt nd
  omega

/-- MathParser::ParseLimitTag (lines 498-521): name, lower bound, base. -/
def parseLimitTag (ctx : PCtx) (nd : XmlNode) : PRes (Option Cell × Nat) :=
  match hc : nd.getChildren with
  | none => .ok (none, 0)
  | some c1 =>
    match parseTag ctx (some c1) false with
    | .crash => .crash
    | .ok (name, _, w1) =>
      match hn : c1.getNext with
      | none => .ok (none, w1)
      | some c2 =>
        match parseTag ctx (some c2) false with
        | .crash => .crash
        | .ok (under, _, w2) =>
          match hn2 : c2.getNext with
          | none => .ok (none, w1 + w2)
          | some c3 =>
            match parseTag ctx (some c3) false with
            | .crash => .crash
            | .ok (base, _, w3) =>
              .ok (some (Cell.mk .limit
                { ctype := ctx.pstyle, style := .tsVariable }
                [name, under, base]), w1 + w2 + w3)
termination_by (sizeOf nd, 2)
decreasing_by
  all_goals apply Prod.Lex.left
  all_goals
    first
    | (have h := sizeOf_getChildren_lt nd
       rw [hc] at h
       omega)
    | (have h1 := sizeOf_getNext_lt c1
       rw [hn] at h1
       have h2 := sizeOf_lt_of_children hc
       omega)
    | (have h1 := sizeOf_lt_of_children hc
       have h2 := sizeOf_lt_of_next hn
       have h3 := sizeOf_getNext_lt c2
       rw [hn2] at h3
       omega)

/-- MathParser::ParseSumTag (lines 523-552): the `type` attribute
(default `sum`) selects product style; the upper bound is parsed only
when the type is not `lsum`, but the child must exist either way. -/
def parseSumTag (ctx : PCtx) (nd : XmlNode) : PRes (Option Cell × Nat) :=
  match hc : nd.getChildren with
  | none => .ok (none, 0)
  | some c1 =>
    match parseTag ctx (some c1) false with
    | .crash => .crash
    | .ok (under, _, w1) =>
      match hn : c1.getNext with
      | none => .ok (none, w1)
      | some c2 =>
        match (if nd.getAttr "type" "sum" ≠ "lsum" then
                 parseTag ctx (some c2) false
               else .ok ([], 0, 0)) with
        | .crash => .crash
        | .ok (over, _, w2) =>
          match hn2 : c2.getNext with
          | none => .ok (none, w1 + w2)
          | some c3 =>
            match parseTag ctx (some c3) false with
            | .crash => .crash
            | .ok (base, _, w3) =>
              .ok (some (Cell.mk .sum
                { prodStyle := nd.getAttr "type" "sum" = "prod",
                  highlight := ctx.highlight,
                  ctype := ctx.pstyle, style := .tsVariable }
                [under, over, base]), w1 + w2 + w3)
termination_by (sizeOf nd, 2)
decreasing_by
  all_goals apply Prod.Lex.left
  all_goals
    first
    | (have h := sizeOf_getChildren_lt nd
       rw [hc] at h
       omega)
    | (have h1 := sizeOf_getNext_lt c1
       rw [hn] at h1
       have h2 := sizeOf_lt_of_children hc
       omega)
    | (have h1 := sizeOf_lt_of_children hc
       have h2 := sizeOf_lt_of_next hn
       have h3 := sizeOf_getNext_lt c2
       rw [hn2] at h3
       omega)

/-- MathParser::ParseIntTag (lines 554-602): no attribute means a
definite integral (lower, upper, base, variable); any attribute means
indefinite (base, variable).  The variable is parsed with `all = true`. -/
def parseIntTag (ctx : PCtx) (nd : XmlNode) : PRes (Option Cell × Nat) :=
  if nd.attrs.isEmpty then
    match hc : nd.getChildren with
    | none => .ok (none, 0)
    | some c1 =>
      match parseTag ctx (some c1) false with
      | .crash => .crash
      | .ok (under, _, w1) =>
        match hn : c1.getNext with
        | none => .ok (none, w1)
        | some c2 =>
          match parseTag ctx (some c2) false with
          | .crash => .crash
          | .ok (over, _, w2) =>
            match hn2 : c2.getNext with
            | none => .ok (none, w1 + w2)
            | some c3 =>
              match parseTag ctx (some c3) false with
              | .crash => .crash
              | .ok (base, _, w3) =>
                match hn3 : c3.getNext with
                | none => .ok (none, w1 + w2 + w3)
                | some c4 =>
                  match parseTag ctx (some c4) true with
                  | .crash => .crash
                  | .ok (var, o4, s4) =>
                    .ok (some (Cell.mk .intCell
                      { intDef := true, highlight := ctx.highlight,
                        ctype := ctx.pstyle, style := .tsVariable }
                      [under, over, base, var]), w1 + w2 + w3 + (o4 + s4))
  else
    match hc : nd.getChildren with
    | none => .ok (none, 0)
    | some c1 =>
      match parseTag ctx (some c1) false with
      | .crash => .crash
      | .ok (base, _, w1) =>
        match hn : c1.getNext with
        | none => .ok (none, w1)
        | some c2 =>
          match parseTag ctx (some c2) true with
          | .crash => .crash
          | .ok (var, o2, s2) =>
            .ok (some (Cell.mk .intCell
              { intDef := false, highlight := ctx.highlight,
                ctype := ctx.pstyle, style := .tsVariable }
              [base, var]), w1 + (o2 + s2))
termination_by (sizeOf nd, 2)
decreasing_by
  all_goals apply Prod.Lex.left
  all_goals
    first
    | (have h := sizeOf_getChildren_lt nd
       rw [hc] at h
       omega)
    | (have h1 := sizeOf_getNext_lt c1
       rw [hn] at h1
       have h2 := sizeOf_lt_of_children hc
       omega)
    | (have h1 := sizeOf_lt_of_children hc
       have h2 := sizeOf_lt_of_next hn
       have h3 := sizeOf_getNext_lt c2
       rw [hn2] at h3
       omega)
    | (have h1 := sizeOf_lt_of_children hc
       have h2 := sizeOf_lt_of_next hn
       have h3 := sizeOf_lt_of_next hn2
       have h4 := sizeOf_getNext_lt c3
       rw [hn3] at h4
       omega)

/-- The inner cells loop of MathParser::ParseTableTag (lines 625-631):
one entry chain per cell node of a row. -/
def tableCellLoop (ctx : PCtx) (c? : Option XmlNode) :
    PRes (List (List Cell) × Nat) :=
  match c? with
  | none => .ok ([], 0)
  | some c =>
    match parseTag ctx (some c) false with
    | .crash => .crash
    | .ok (entry, _, w1) =>
      match tableCellLoop ctx c.getNext with
      | .crash => .crash
      | .ok (rest, w2) => .ok (entry :: rest, w1 + w2)
termination_by (sizeOf c?, 2)
decreasing_by
  all_goals
    first
    | exact Prod.Lex.right _ (by omega)
    | exact lexNext _ _ _

/-- The rows loop of MathParser::ParseTableTag (lines 621-633). -/
def tableRowLoop (ctx : PCtx) (r? : Option XmlNode) :
    PRes (List (List (List Cell)) × Nat) :=
  match r? with
  | none => .ok ([], 0)
  | some r =>
    match tableCellLoop ctx r.getChildren with
    | .crash => .crash
    | .ok (row, w1) =>
      match tableRowLoop ctx r.getNext with
      | .crash => .crash
      | .ok (rest, w2) => .ok (row :: rest, w1 + w2)
termination_by (sizeOf r?, 2)
decreasing_by
  all_goals
    first
    | exact lexChildrenSome _ _ _
    | exact lexNext _ _ _

/-- MathParser::ParseTableTag (lines 604-638): matrix flags from the
attributes, then all rows; never fails.  The 2-D row structure is kept
as the row lengths plus the row-major entry slots. -/
def parseTableTag (ctx : PCtx) (nd : XmlNode) : PRes (Option Cell × Nat) :=
  let inference := nd.getAttr "inference" "false" = "true"
  let special := nd.getAttr "special" "false" = "true" || inference
  match tableRowLoop ctx nd.getChildren with
  | .crash => .crash
  | .ok (rows, w) =>
    .ok (some (Cell.mk .matr
      { highlight := ctx.highlight, special := special, inference := inference,
        colNames := nd.getAttr "colnames" "false" = "true",
        rowNames := nd.getAttr "rownames" "false" = "true",
        rowLens := rows.map List.length,
        ctype := ctx.pstyle, style := .tsVariable }
      rows.flatten), w)
termination_by (sizeOf nd, 2)
decreasing_by
  exact lexChildren _ _ _

/-- The folded-cells loop of MathParser::ParseCellTag (lines 163-172):
`firstChain` is the chain `last` points at; each iteration overwrites
`last->m_next` with the next parse result (losing the old tail beyond
the head) and crashes when `last` or the new result is NULL. -/
def foldLoop (ctx : PCtx) (x? : Option XmlNode) (firstChain : List Cell) :
    PRes (List Cell × Nat) :=
  match x? with
  | none => .ok (firstChain, 0)
  | some x =>
    match firstChain with
    | [] => .crash
    | fh :: _ =>
      match parseTag ctx (some x) false with
      | .crash => .crash
      | .ok ([], _, _) => .crash
      | .ok (r, _, w1) =>
        match foldLoop ctx x.getNext r with
        | .crash => .crash
        | .ok (tl, w2) => .ok (fh :: tl, w1 + w2)
termination_by (sizeOf x?, 2)
decreasing_by
  all_goals
    first
    | exact Prod.Lex.right _ (by omega)
    | exact lexNext _ _ _

/-- The whole `fold` child handling (lines 158-176): parse the first
cell, chain the remaining ones through `foldLoop`; the empty result
means `HideTree` is not called. -/
def parseFoldAll (ctx : PCtx) (x? : Option XmlNode) : PRes (List Cell × Nat) :=
  match x? with
  | none => .ok ([], 0)
  | some x1 =>
    match parseTag ctx (some x1) false with
    | .crash => .crash
    | .ok (t1, _, w1) =>
      match foldLoop ctx x1.getNext t1 with
      | .crash => .crash
      | .ok (tree, w2) => .ok (tree, w1 + w2)
termination_by (sizeOf x?, 2)
decreasing_by
  all_goals
    first
    | exact Prod.Lex.right _ (by omega)
    | exact lexNext _ _ _

/-- The children loop for `type="code"` group cells (lines 88-102): an
`input` child supplies the editable content (NULL dereference when the
parse yields nothing), an `output` child is appended to the output
chain when non-NULL. -/
def codeChildrenLoop (ctx : PCtx) (c? : Option XmlNode) (acc : GroupAcc) :
    PRes (GroupAcc × Nat) :=
  match c? with
  | none => .ok (acc, 0)
  | some c =>
    if c.getName = "input" then
      match parseTag ctx c.getChildren true with
      | .crash => .crash
      | .ok ([], _, _) => .crash
      | .ok (e :: _, o1, s1) =>
        match codeChildrenLoop ctx c.getNext { acc with editable := e.getValue } with
        | .crash => .crash
        | .ok (a2, w2) => .ok (a2, (o1 + s1) + w2)
    else if c.getName = "output" then
      match parseTag ctx c.getChildren true with
      | .crash => .crash
      | .ok (cells, o1, s1) =>
        let acc := if cells.isEmpty then acc
                   else { acc with output := acc.output ++ cells }
        match codeChildrenLoop ctx c.getNext acc with
        | .crash => .crash
        | .ok (a2, w2) => .ok (a2, (o1 + s1) + w2)
    else
      codeChildrenLoop ctx c.getNext acc
termination_by (sizeOf c?, 2)
decreasing_by
  all_goals
    first
    | exact lexChildrenSome _ _ _
    | exact lexNext _ _ _

/-- The children loop for `type="image"` group cells (lines 105-115): an
`editor` child supplies the editable content, any other child is parsed
(with its following siblings) and appended to the output chain
(`AppendOutput` with a possibly NULL argument; modelled from the spec as
appending the possibly empty chain). -/
def imageChildrenLoop (ctx : PCtx) (c? : Option XmlNode) (acc : GroupAcc) :
    PRes (GroupAcc × Nat) :=
  match c? with
  | none => .ok (acc, 0)
  | some c =>
    if c.getName = "editor" then
      imageChildrenLoop ctx c.getNext
        { acc with editable := (parseEditorTag c).getValue }
    else
      match parseTag ctx (some c) true with
      | .crash => .crash
      | .ok (cells, o1, s1) =>
        match imageChildrenLoop ctx c.getNext
            { acc with output := acc.output ++ cells } with
        | .crash => .crash
        | .ok (a2, w2) => .ok (a2, (o1 + s1) + w2)
termination_by (sizeOf c?, 2)
decreasing_by
  all_goals
    first
    | exact Prod.Lex.right _ (by omega)
    | exact lexNext _ _ _

/-- The children loop for the text-type group cells (title / section /
subsection / subsubsection, lines 151-178): `editor` children supply the
editable content, `fold` children are parsed cell by cell into the
folded subtree (`HideTree`, run only when the first parse produced a
cell). -/
def textTypeChildrenLoop (ctx : PCtx) (c? : Option XmlNode) (acc : GroupAcc) :
    PRes (GroupAcc × Nat) :=
  match c? with
  | none => .ok (acc, 0)
  | some c =>
    if c.getName = "editor" then
      textTypeChildrenLoop ctx c.getNext
        { acc with editable := (parseEditorTag c).getValue }
    else if c.getName = "fold" then
      match parseFoldAll ctx c.getChildren with
      | .crash => .crash
      | .ok (tree, w1) =>
        let acc := if tree.isEmpty then acc else { acc with folded := tree }
        match textTypeChildrenLoop ctx c.getNext acc with
        | .crash => .crash
        | .ok (a2, w3) => .ok (a2, w1 + w3)
    else
      textTypeChildrenLoop ctx c.getNext acc
termination_by (sizeOf c?, 2)
decreasing_by
  all_goals
    first
    | exact lexChildrenSome _ _ _
    | exact lexNext _ _ _

/-- MathParser::ParseCellTag (lines 76-184): builds one GroupCell from a
`cell` node, dispatching on the `type` attribute (default `text`); a
`subsection` with sectioning level `4` becomes a sub-subsection.  An
unknown type returns NULL (line 149). -/
def parseCellTag (ctx : PCtx) (nd : XmlNode) : PRes (Option Cell × Nat) :=
  let hide := nd.getAttr "hide" "false" = "true"
  let type := nd.getAttr "type" "text"
  let slevel := nd.getAttr "sectioning_level" "0"
  if type = "code" then
    match codeChildrenLoop ctx nd.getChildren {} with
    | .crash => .crash
    | .ok (acc, w) => .ok (some (mkGroup .gcCode acc hide), w)
  else if type = "image" then
    match imageChildrenLoop ctx nd.getChildren {} with
    | .crash => .crash
    | .ok (acc, w) => .ok (some (mkGroup .gcImage acc hide), w)
  else if type = "pagebreak" then
    .ok (some (mkGroup .gcPagebreak {} hide), 0)
  else if type = "text" then
    match parseTag ctx nd.getChildren true with
    | .crash => .crash
    | .ok ([], _, _) => .crash
    | .ok (e :: _, o, s) =>
      .ok (some (mkGroup .gcText { editable := e.getValue } hide), o + s)
  else
    let gt? : Option GType :=
      if type = "title" then some .gcTitle
      else if type = "section" then some .gcSection
      else if type = "subsection" then
        (if slevel ≠ "4" then some .gcSubsection else some .gcSubsubsection)
      else if type = "subsubsection" then some .gcSubsubsection
      else none
    match gt? with
    | none => .ok (none, 0)
    | some gt =>
      match textTypeChildrenLoop ctx nd.getChildren {} with
      | .crash => .crash
      | .ok (acc, w) => .ok (some (mkGroup gt acc hide), w)
termination_by (sizeOf nd, 2)
decreasing_by
  all_goals exact lexChildren _ _ _

/-- The per-node dispatch of MathParser::ParseTag (lines 651-967): the
chain the node produces (empty for NULL) together with the warnings
raised in nested recursive calls.  The tag order follows the source's
if/else chain; element tags not matched are a transparent pass-through
when they have children and produce nothing otherwise; non-element
nodes are wrapped by ParseText.  (The default arguments `all = true` of
ParseTag and `style = TS_DEFAULT` of ParseText/ParseCharCode come from
the header, which is not part of the excerpt; modelled from the spec,
whose builder contract parses a node *and its following siblings* unless
a construct explicitly asks for one cell.) -/
def nodeResult (ctx : PCtx) (nd : XmlNode) : PRes (List Cell × Nat) :=
  if nd.getType = XmlNodeType.element then
    let tag := nd.getName
    if tag = "v" then .ok ([parseText ctx nd.getChildren .tsVariable], 0)
    else if tag = "t" then
      let style := if nd.getAttr "type" "" = "error" then TextStyle.tsError
                   else TextStyle.tsDefault
      .ok ([parseText ctx nd.getChildren style], 0)
    else if tag = "n" then .ok ([parseText ctx nd.getChildren .tsNumber], 0)
    else if tag = "h" then
      .ok ([(parseText ctx nd.getChildren .tsDefault).mapFields
              (fun f => { f with hidden := true })], 0)
    else if tag = "p" then
      match parseParenTag ctx nd with
      | .crash => .crash
      | .ok (none, w) => .ok ([], w)
      | .ok (some c, w) => .ok ([c], w)
    else if tag = "f" then
      match parseFracTag ctx nd with
      | .crash => .crash
      | .ok (none, w) => .ok ([], w)
      | .ok (some c, w) => .ok ([c], w)
    else if tag = "e" then
      match parseSupTag ctx nd with
      | .crash => .crash
      | .ok (none, w) => .ok ([], w)
      | .ok (some c, w) => .ok ([c], w)
    else if tag = "i" then
      match parseSubTag ctx nd with
      | .crash => .crash
      | .ok (none, w) => .ok ([], w)
      | .ok (some c, w) => .ok ([c], w)
    else if tag = "fn" then
      match parseFunTag ctx nd with
      | .crash => .crash
      | .ok (none, w) => .ok ([], w)
      | .ok (some c, w) => .ok ([c], w)
    else if tag = "g" then
      .ok ([parseText ctx nd.getChildren .tsGreekConstant], 0)
    else if tag = "s" then
      .ok ([parseText ctx nd.getChildren .tsSpecialConstant], 0)
    else if tag = "fnm" then
      .ok ([parseText ctx nd.getChildren .tsFunction], 0)
    else if tag = "q" then
      match parseSqrtTag ctx nd with
      | .crash => .crash
      | .ok (none, w) => .ok ([], w)
      | .ok (some c, w) => .ok ([c], w)
    else if tag = "d" then
      match parseDiffTag ctx nd with
      | .crash => .crash
      | .ok (none, w) => .ok ([], w)
      | .ok (some c, w) => .ok ([c], w)
    else if tag = "sm" then
      match parseSumTag ctx nd with
      | .crash => .crash
      | .ok (none, w) => .ok ([], w)
      | .ok (some c, w) => .ok ([c], w)
    else if tag = "in" then
      match parseIntTag ctx nd with
      | .crash => .crash
      | .ok (none, w) => .ok ([], w)
      | .ok (some c, w) => .ok ([c], w)
    else if tag = "mspace" then .ok ([textCellOf " "], 0)
    else if tag = "at" then
      match parseAtTag ctx nd with
      | .crash => .crash
      | .ok (none, w) => .ok ([], w)
      | .ok (some c, w) => .ok ([c], w)
    else if tag = "a" then
      match parseAbsTag ctx nd with
      | .crash => .crash
      | .ok (none, w) => .ok ([], w)
      | .ok (some c, w) => .ok ([c], w)
    else if tag = "cj" then
      match parseConjugateTag ctx nd with
      | .crash => .crash
      | .ok (none, w) => .ok ([], w)
      | .ok (some c, w) => .ok ([c], w)
    else if tag = "ie" then
      match parseSubSupTag ctx nd with
      | .crash => .crash
      | .ok (none, w) => .ok ([], w)
      | .ok (some c, w) => .ok ([c], w)
    else if tag = "lm" then
      match parseLimitTag ctx nd with
      | .crash => .crash
      | .ok (none, w) => .ok ([], w)
      | .ok (some c, w) => .ok ([c], w)
    else if tag = "r" then
      match parseTag ctx nd.getChildren true with
      | .crash => .crash
      | .ok (cells, o, s) => .ok (cells, o + s)
    else if tag = "tb" then
      match parseTableTag ctx nd with
      | .crash => .crash
      | .ok (none, w) => .ok ([], w)
      | .ok (some c, w) => .ok ([c], w)
    else if tag = "mth" || tag = "line" then
      match parseTag ctx nd.getChildren true with
      | .crash => .crash
      | .ok ([], o, s) => .ok ([textCellOf " "], o + s)
      | .ok (c :: cs, o, s) => .ok (c.forceBreakLine :: cs, o + s)
    else if tag = "lbl" then
      let style := if nd.getAttr "userdefined" "no" ≠ "yes" then TextStyle.tsLabel
                   else TextStyle.tsUserlabel
      .ok ([(parseText ctx nd.getChildren style).forceBreakLine], 0)
    else if tag = "st" then
      .ok ([parseText ctx nd.getChildren .tsString], 0)
    else if tag = "hl" then
      match parseTag { ctx with highlight := true } nd.getChildren true with
      | .crash => .crash
      | .ok (cells, o, s) => .ok (cells, o + s)
    else if tag = "img" then
      match nd.getChildren with
      | none => .crash
      | some ch =>
        let filename := ch.getContent
        let del := if ctx.hasFS then false
                   else nd.getAttr "del" "yes" ≠ "no"
        .ok ([Cell.mk .img
          { value := filename, delFlag := del,
            drawRect := nd.getAttr "rect" "true" ≠ "false" } []], 0)
    else if tag = "slide" then
      match nd.getChildren with
      | none => .crash
      | some ch =>
        let fr : Option Int :=
          match nd.getAttrOpt "fr" with
          | some f => parseLong f
          | none => none
        let images := (ch.getContent.splitOn ";").filter (fun t => t ≠ "")
        .ok ([Cell.mk .slide { frameRate := fr, images := images } []], 0)
    else if tag = "editor" then .ok ([parseEditorTag nd], 0)
    else if tag = "cell" then
      match parseCellTag ctx nd with
      | .crash => .crash
      | .ok (none, w) => .ok ([], w)
      | .ok (some c, w) => .ok ([c], w)
    else if tag = "ascii" then
      .ok ([parseCharCode ctx nd.getChildren .tsDefault], 0)
    else
      match nd.getChildren with
      | some _ =>
        match parseTag ctx nd.getChildren true with
        | .crash => .crash
        | .ok (cells, o, s) => .ok (cells, o + s)
      | none => .ok ([], 0)
  else .ok ([parseText ctx (some nd) .tsDefault], 0)
termination_by (sizeOf nd, 3)
decreasing_by
  all_goals
    first
    | (apply Prod.Lex.right; omega)
    | (apply Prod.Lex.left; have h := sizeOf_getChildren_lt nd; omega)

/-- The sibling loop of MathParser::ParseTag in the `all = true` mode. -/
def parseLoop (ctx : PCtx) (n? : Option XmlNode) (st : LoopSt) : PRes LoopSt :=
  match n? with
  | none => .ok st
  | some nd =>
    match nodeResult ctx nd with
    | .crash => .crash
    | .ok (r, w) =>
      match stepAltCopy nd (stepAdvance (stepDispatch st r w)) with
      | .crash => .crash
      | .ok st3 => parseLoop ctx nd.getNext st3
termination_by (sizeOf n?, 0)
decreasing_by
  all_goals
    first
    | exact lexNode _ _ _
    | exact lexNext _ _ _

/-- MathParser::ParseTag (lines 640-996).  Returns the produced chain
(`tmp` when set, otherwise NULL), the number of warnings this call's own
loop issued, and the number of warnings nested recursive calls issued.
With `all = false` the loop body runs once for the first node and breaks
before the tmp/warning and altCopy steps (line 968). -/
def parseTag (ctx : PCtx) (n? : Option XmlNode) (all : Bool) :
    PRes (List Cell × Nat × Nat) :=
  match all, n? with
  | true, m? =>
    (match parseLoop ctx m? {} with
     | .crash => .crash
     | .ok st =>
       .ok (if st.tmpSet then st.main else [], st.ownWarns, st.subWarns))
  | false, none => .ok ([], 0, 0)
  | false, some nd =>
    (match nodeResult ctx nd with
     | .crash => .crash
     | .ok (r, w) => .ok (r, 0, w))
termination_by (sizeOf n?, 1)
decreasing_by
  all_goals
    first
    | exact Prod.Lex.right _ (by omega)
    | exact lexNode _ _ _

end

/-! ### MathParser::ParseLine (lines 1002-1061) -/

/-- POSIX `[[:cntrl:]]`: ASCII 0-31 and 127. -/
def isCntrl (c : Char) : Bool := c.toNat < 32 || c.toNat = 127

/-- The fixed placeholder produced for oversized input (lines
1057-1058): a TextCell with the "too long" message and a forced line
break. -/
def tooLongCell : Cell :=
  (textCellOf " << Expression too long to display! >>").forceBreakLine

/-- The `showLength` selector mapping (lines 1010-1027): configuration
default 0; the switch maps 0/1/2/3 to 50000/500000/5000000/0 and leaves
any other value unchanged. -/
def showLengthOf (cfgShow : Option Int) : Int :=
  let sl := cfgShow.getD 0
  if sl = 0 then 50000
  else if sl = 1 then 500000
  else if sl = 2 then 5000000
  else if sl = 3 then 0
  else sl

/-- The implicit conversion of the `int` cutoff to `size_t` in the
comparison `s.Length() < showLength` (64-bit size_t). -/
def asSizeT (n : Int) : Int := if n < 0 then n + 2 ^ 64 else n

/-- MathParser::ParseLine.  `xmlLoad` stands for the external
`wxXmlDocument` collaborator, mapping the (control-character-scrubbed)
string to the root node of its parsed document, `none` when loading
fails or yields no root.

Line 1036 reads `if ((s.Length() < showLength) || (showLength=0))`:
the right-hand operand is an *assignment*, whose value 0 is false, so
the condition reduces to the left comparison alone, with the `int`
promoted to `size_t`. -/
def parseLine (xmlLoad : String → Option XmlNode) (cfg : Config)
    (hasFS : Bool) (s : String) (style : Int) : PRes (List Cell) :=
  let ctx : PCtx := { pstyle := style, fracStyle := .fcNormal,
                      highlight := false, hasFS := hasFS, cfg := cfg }
  let showLength := showLengthOf cfg.showLength
  let s := strMap (fun c => if isCntrl c then Char.ofNat 0xFFFD else c) s
  if (s.length : Int) < asSizeT showLength then
    match xmlLoad s with
    | none => .ok []
    | some doc =>
      match parseTag ctx doc.getChildren true with
      | .crash => .crash
      | .ok (cells, _, _) => .ok cells
  else
    .ok [tooLongCell]

/-! ### Result projections -/

/-- The cell chain of a ParseTag result (`none` for a crash). -/
def cellsOf : PRes (List Cell × Nat × Nat) → Option (List Cell)
  | .crash => none
  | .ok (cs, _, _) => some cs

/-- The warnings issued by the call's own loop. -/
def ownWarnsOf : PRes (List Cell × Nat × Nat) → Nat
  | .crash => 0
  | .ok (_, o, _) => o

/-- All warnings issued during the call, nested recursive calls
included. -/
def totalWarnsOf : PRes (List Cell × Nat × Nat) → Nat
  | .crash => 0
  | .ok (_, o, s) => o + s

/-- The first produced cell, when any. -/
def firstCell (r : PRes (List Cell × Nat × Nat)) : Option Cell :=
  match r with
  | .crash => none
  | .ok (cs, _, _) => cs.head?

/-! ### Next-sibling irrelevance

Every handler reads its node only through the type, name, attributes,
content and first child: the next-sibling link never matters to the
result a single node produces.  These lemmas normalise the link to
`none`. -/

theorem parseEditorTag_next (t n a c ch nx) :
    parseEditorTag (.mk t n a c ch nx) = parseEditorTag (.mk t n a c ch none) := by
  rw [parseEditorTag, parseEditorTag]
  simp

theorem parseFracTag_next (ctx t n a c ch nx) :
    parseFracTag ctx (.mk t n a c ch nx) =
      parseFracTag ctx (.mk t n a c ch none) := by
  rw [parseFracTag.eq_def, parseFracTag.eq_def]
  simp

theorem parseDiffTag_next (ctx t n a c ch nx) :
    parseDiffTag ctx (.mk t n a c ch nx) =
      parseDiffTag ctx (.mk t n a c ch none) := by
  rw [parseDiffTag.eq_def, parseDiffTag.eq_def]
  simp

theorem parseSupTag_next (ctx t n a c ch nx) :
    parseSupTag ctx (.mk t n a c ch nx) =
      parseSupTag ctx (.mk t n a c ch none) := by
  rw [parseSupTag.eq_def, parseSupTag.eq_def]
  simp

theorem parseSubSupTag_next (ctx t n a c ch nx) :
    parseSubSupTag ctx (.mk t n a c ch nx) =
      parseSubSupTag ctx (.mk t n a c ch none) := by
  rw [parseSubSupTag.eq_def, parseSubSupTag.eq_def]
  simp

theorem parseSubTag_next (ctx t n a c ch nx) :
    parseSubTag ctx (.mk t n a c ch nx) =
      parseSubTag ctx (.mk t n a c ch none) := by
  rw [parseSubTag.eq_def, parseSubTag.eq_def]
  simp

theorem parseAtTag_next (ctx t n a c ch nx) :
    parseAtTag ctx (.mk t n a c ch nx) =
      parseAtTag ctx (.mk t n a c ch none) := by
  rw [parseAtTag.eq_def, parseAtTag.eq_def]
  simp

theorem parseFunTag_next (ctx t n a c ch nx) :
    parseFunTag ctx (.mk t n a c ch nx) =
      parseFunTag ctx (.mk t n a c ch none) := by
  rw [parseFunTag.eq_def, parseFunTag.eq_def]
  simp

theorem parseSqrtTag_next (ctx t n a c ch nx) :
    parseSqrtTag ctx (.mk t n a c ch nx) =
      parseSqrtTag ctx (.mk t n a c ch none) := by
  rw [parseSqrtTag.eq_def, parseSqrtTag.eq_def]
  simp

theorem parseAbsTag_next (ctx t n a c ch nx) :
    parseAbsTag ctx (.mk t n a c ch nx) =
      parseAbsTag ctx (.mk t n a c ch none) := by
  rw [parseAbsTag.eq_def, parseAbsTag.eq_def]
  simp

theorem parseConjugateTag_next (ctx t n a c ch nx) :
    parseConjugateTag ctx (.mk t n a c ch nx) =
      parseConjugateTag ctx (.mk t n a c ch none) := by
  rw [parseConjugateTag.eq_def, parseConjugateTag.eq_def]
  simp

theorem parseParenTag_next (ctx t n a c ch nx) :
    parseParenTag ctx (.mk t n a c ch nx) =
      parseParenTag ctx (.mk t n a c ch none) := by
  rw [parseParenTag.eq_def, parseParenTag.eq_def]
  simp

theorem parseLimitTag_next (ctx t n a c ch nx) :
    parseLimitTag ctx (.mk t n a c ch nx) =
      parseLimitTag ctx (.mk t n a c ch none) := by
  rw [parseLimitTag.eq_def, parseLimitTag.eq_def]
  simp

theorem parseSumTag_next (ctx t n a c ch nx) :
    parseSumTag ctx (.mk t n a c ch nx) =
      parseSumTag ctx (.mk t n a c ch none) := by
  rw [parseSumTag.eq_def, parseSumTag.eq_def]
  simp

theorem parseIntTag_next (ctx t n a c ch nx) :
    parseIntTag ctx (.mk t n a c ch nx) =
      parseIntTag ctx (.mk t n a c ch none) := by
  rw [parseIntTag.eq_def, parseIntTag.eq_def]
  simp

theorem parseTableTag_next (ctx t n a c ch nx) :
    parseTableTag ctx (.mk t n a c ch nx) =
      parseTableTag ctx (.mk t n a c ch none) := by
  rw [parseTableTag.eq_def, parseTableTag.eq_def]
  simp

theorem parseCellTag_next (ctx t n a c ch nx) :
    parseCellTag ctx (.mk t n a c ch nx) =
      parseCellTag ctx (.mk t n a c ch none) := by
  rw [parseCellTag.eq_def, parseCellTag.eq_def]
  simp

theorem nodeResult_next (ctx t n a c ch nx) :
    nodeResult ctx (.mk t n a c ch nx) =
      nodeResult ctx (.mk t n a c ch none) := by
  rw [nodeResult.eq_def, nodeResult.eq_def]
  simp only [getType_mk, getName_mk, getChildren_mk, getAttr_mk, getAttrOpt_mk,
    getContent_mk, parseText, parseFracTag_next, parseDiffTag_next,
    parseSupTag_next, parseSubSupTag_next, parseSubTag_next, parseAtTag_next,
    parseFunTag_next, parseSqrtTag_next, parseAbsTag_next,
    parseConjugateTag_next, parseParenTag_next, parseLimitTag_next,
    parseSumTag_next, parseIntTag_next, parseTableTag_next, parseCellTag_next,
    parseEditorTag_next]

/-- The result a single node produces does not depend on its
next-sibling link. -/
theorem nodeResult_setNext (ctx : PCtx) (nd : XmlNode) (x : Option XmlNode) :
    nodeResult ctx (nd.setNext x) = nodeResult ctx nd := by
  cases nd with
  | mk t n a c ch nx =>
    rw [setNext_mk, nodeResult_next ctx t n a c ch x,
      nodeResult_next ctx t n a c ch nx]

/-! ### Loop-state invariants -/

def PRes.map (f : α → β) : PRes α → PRes β
  | .crash => .crash
  | .ok a => .ok (f a)

/-- The chain-related part of the loop state: everything except the
warning flag and the two warning counters. -/
def coreOfSt (st : LoopSt) : List Cell × Bool × List Cell × Pos :=
  (st.main, st.tmpSet, st.cur, st.pos)

/-- Extracting the returned chain from the chain-related state. -/
def cellsOfCore : PRes (List Cell × Bool × List Cell × Pos) → Option (List Cell)
  | .crash => none
  | .ok (m, t, _, _) => some (if t then m else [])

theorem stepDispatch_core {st₁ st₂ : LoopSt} (r : List Cell) (w₁ w₂ : Nat)
    (h : coreOfSt st₁ = coreOfSt st₂) :
    coreOfSt (stepDispatch st₁ r w₁) = coreOfSt (stepDispatch st₂ r w₂) := by
  cases st₁
  cases st₂
  simp [coreOfSt] at h
  obtain ⟨h1, h2, h3, h4⟩ := h
  subst h1 h2 h3 h4
  rename_i pos _ _ _ _ _ _
  cases pos <;> simp [stepDispatch, coreOfSt]

theorem stepAdvance_core {st₁ st₂ : LoopSt} (h : coreOfSt st₁ = coreOfSt st₂) :
    coreOfSt (stepAdvance st₁) = coreOfSt (stepAdvance st₂) := by
  cases st₁
  cases st₂
  simp [coreOfSt] at h
  obtain ⟨h1, h2, h3, h4⟩ := h
  subst h1 h2 h3 h4
  rename_i pos _ _ _ _ _ _
  cases pos <;> simp [stepAdvance, coreOfSt] <;> split_ifs <;> simp

theorem stepAltCopy_core (nd : XmlNode) {st₁ st₂ : LoopSt}
    (h : coreOfSt st₁ = coreOfSt st₂) :
    PRes.map coreOfSt (stepAltCopy nd st₁) = PRes.map coreOfSt (stepAltCopy nd st₂) := by
  cases st₁
  cases st₂
  simp [coreOfSt] at h
  obtain ⟨h1, h2, h3, h4⟩ := h
  subst h1 h2 h3 h4
  rename_i pos _ _ _ _ _ _
  cases hac : nd.getAttrOpt "altCopy" <;>
    cases pos <;> simp [stepAltCopy, hac, PRes.map, coreOfSt]

/-- The chains a ParseTag loop builds do not depend on the warning flag
or the warning counters of the incoming state. -/
theorem parseLoop_core (ctx : PCtx) (N : Nat) :
    ∀ (n? : Option XmlNode), sizeOf n? = N →
    ∀ (st₁ st₂ : LoopSt), coreOfSt st₁ = coreOfSt st₂ →
    PRes.map coreOfSt (parseLoop ctx n? st₁) =
      PRes.map coreOfSt (parseLoop ctx n? st₂) := by
  induction N using Nat.strong_induction_on with
  | _ N ih =>
    intro n? hN st₁ st₂ h
    cases n? with
    | none =>
      rw [parseLoop, parseLoop]
      simp [PRes.map]
      exact h
    | some nd =>
      rw [parseLoop.eq_def, parseLoop.eq_def]
      simp only []
      cases hnr : nodeResult ctx nd with
      | crash => simp [PRes.map]
      | ok rw0 =>
        obtain ⟨r, w⟩ := rw0
        simp only []
        have hd := stepDispatch_core r w w h
        have ha := stepAdvance_core hd
        have hc := stepAltCopy_core nd ha
        cases hx1 : stepAltCopy nd (stepAdvance (stepDispatch st₁ r w)) with
        | crash =>
          cases hx2 : stepAltCopy nd (stepAdvance (stepDispatch st₂ r w)) with
          | crash => simp [PRes.map]
          | ok b₂ => rw [hx1, hx2] at hc; simp [PRes.map] at hc
        | ok b₁ =>
          cases hx2 : stepAltCopy nd (stepAdvance (stepDispatch st₂ r w)) with
          | crash => rw [hx1, hx2] at hc; simp [PRes.map] at hc
          | ok b₂ =>
            rw [hx1, hx2] at hc
            simp only [PRes.map, PRes.ok.injEq] at hc
            have hlt : sizeOf nd.getNext < N := by
              have h1 := sizeOf_getNext_lt nd
              have h2 : sizeOf (some nd) = 1 + sizeOf nd := by simp
              omega
            exact ih _ hlt nd.getNext rfl b₁ b₂ hc

theorem stepDispatch_warn (st : LoopSt) (r : List Cell) (w : Nat) :
    (stepDispatch st r w).ownWarns = st.ownWarns ∧
      (stepDispatch st r w).warning = st.warning := by
  cases hp : st.pos <;> simp [stepDispatch, hp]

theorem stepAdvance_warn (st : LoopSt) :
    (stepAdvance st).ownWarns + (if (stepAdvance st).warning then 1 else 0) =
      st.ownWarns + (if st.warning then 1 else 0) := by
  cases hp : st.pos <;> simp [stepAdvance, hp] <;> split_ifs <;> simp_all <;> omega

theorem stepAltCopy_warn (nd : XmlNode) (st st' : LoopSt)
    (h : stepAltCopy nd st = .ok st') :
    st'.ownWarns = st.ownWarns ∧ st'.warning = st.warning := by
  unfold stepAltCopy at h
  cases hac : nd.getAttrOpt "altCopy" <;> rw [hac] at h
  · cases h
    exact ⟨rfl, rfl⟩
  · cases hp : st.pos <;> rw [hp] at h <;> cases h <;> simp

/-- The quantity `ownWarns + (1 if the warning is still armed)` is
preserved by the loop: the loop issues a warning only by disarming the
flag. -/
theorem parseLoop_warnBound (ctx : PCtx) (N : Nat) :
    ∀ (n? : Option XmlNode), sizeOf n? = N →
    ∀ (st st' : LoopSt), parseLoop ctx n? st = .ok st' →
    st'.ownWarns + (if st'.warning then 1 else 0) =
      st.ownWarns + (if st.warning then 1 else 0) := by
  induction N using Nat.strong_induction_on with
  | _ N ih =>
    intro n? hN st st' hres
    cases n? with
    | none =>
      rw [parseLoop] at hres
      cases hres
      rfl
    | some nd =>
      rw [parseLoop.eq_def] at hres
      simp only [] at hres
      cases hnr : nodeResult ctx nd with
      | crash => rw [hnr] at hres; cases hres
      | ok rw0 =>
        obtain ⟨r, w⟩ := rw0
        rw [hnr] at hres
        simp only [] at hres
        cases hx : stepAltCopy nd (stepAdvance (stepDispatch st r w)) with
        | crash => rw [hx] at hres; cases hres
        | ok b =>
          rw [hx] at hres
          have hlt : sizeOf nd.getNext < N := by
            have h1 := sizeOf_getNext_lt nd
            have h2 : sizeOf (some nd) = 1 + sizeOf nd := by simp
            omega
          have h1 := ih _ hlt nd.getNext rfl b st' hres
          have h2 := stepAltCopy_warn nd _ b hx
          have h3 := stepAdvance_warn (stepDispatch st r w)
          have h4 := stepDispatch_warn st r w
          obtain ⟨h2a, h2b⟩ := h2
          obtain ⟨h4a, h4b⟩ := h4
          rw [h2a, h2b] at h1
          rw [h4a, h4b] at h3
          omega

/-- The chain a `ParseTag(…, true)` call returns is a function of the
chain-related loop state. -/
theorem cellsOf_parseTag_true (ctx : PCtx) (n? : Option XmlNode) :
    cellsOf (parseTag ctx n? true) =
      cellsOfCore (PRes.map coreOfSt (parseLoop ctx n? {})) := by
  rw [parseTag.eq_def]
  cases h : parseLoop ctx n? {} with
  | crash => simp [h, cellsOf, PRes.map, cellsOfCore]
  | ok st => simp [h, cellsOf, PRes.map, cellsOfCore, coreOfSt]

/-! ### String facts -/

theorem strMap_length (f : Char → Char) (s : String) :
    (strMap f s).length = s.length := by
  cases s with
  | mk d =>
    show (d.map f).length = d.length
    simp

theorem strMap_id_of_digits (s : String) (h : ∀ c ∈ s.data, c.isDigit) :
    strMap (fun c => if c = '-' then minusChar else c) s = s := by
  unfold strMap
  have hmap : ∀ c ∈ s.data, (if c = '-' then minusChar else c) = id c := by
    intro c hc
    have hd := h c hc
    have hne : c ≠ '-' := by
      intro he
      rw [he] at hd
      exact absurd hd (by decide)
    simp [hne]
  rw [List.map_congr_left hmap, List.map_id]

theorem displayedDigitsOf_ge (cfgD : Option Int) :
    10 ≤ displayedDigitsOf cfgD := by
  cases cfgD <;> simp [displayedDigitsOf] <;> split_ifs <;> omega

/-! ### Concrete inputs used by witnesses and counterexamples -/

/-- A text node with the given content. -/
def txtNode (s : String) : XmlNode := .mk .textNode "" [] s none none

/-- A `<v>` element wrapping a text child. -/
def vNode (s : String) (nx : Option XmlNode) : XmlNode :=
  .mk .element "v" [] "" (some (txtNode s)) nx

/-! ### Claims -/

/-- The truncation behaviour of ParseText on number-styled digit
strings, shared by the claims below. -/
theorem parseText_truncation_eq (cfgD showL : Option Int) (pstyle : Int)
    (hl hasFS : Bool) (fracS : FracStyle) (nd : XmlNode) (content : String)
    (hco : nd.getContent = content) (hne : content ≠ "")
    (hdig : ∀ c ∈ content.data, c.isDigit) :
    (parseText
        { pstyle := pstyle, fracStyle := fracS, highlight := hl,
          hasFS := hasFS,
          cfg := { displayedDigits := cfgD, showLength := showL } }
        (some nd) .tsNumber).value =
      if (content.length : Int) > displayedDigitsOf cfgD then
        strLeft content (min (displayedDigitsOf cfgD / 3) 30).toNat ++
          ("[" ++ toString ((content.length : Int) -
              2 * min (displayedDigitsOf cfgD / 3) 30) ++ " digits]") ++
          strRight content (min (displayedDigitsOf cfgD / 3) 30).toNat
      else content := by
  rw [parseText, hco]
  rw [parseTextStr, if_neg hne]
  rw [strMap_id_of_digits content hdig]
  simp only [Cell.value, Cell.fields]
  split_ifs <;>
    first
    | rfl
    | rw [min_eq_right (by omega : (30 : Int) ≤ displayedDigitsOf cfgD / 3)]
    | rw [min_eq_left (by omega : (displayedDigitsOf cfgD / 3 : Int) ≤ 30)]

theorem data_append (s t : String) : (s ++ t).data = s.data ++ t.data := rfl

/-- **C1**: for a number-styled text leaf with digit-string content of
length L and digit cutoff C read from the configuration (default 100,
clamped to at least 10): if L > C the displayed value becomes the first
`left = min(C/3, 30)` characters, an elision marker naming `L - 2*left`
digits, and the last `left` characters; if L ≤ C the value is the
content unchanged. -/
theorem claim1_numeric_truncation (cfgD showL : Option Int) (pstyle : Int)
    (hl hasFS : Bool) (fracS : FracStyle) (nd : XmlNode) (content : String)
    (hco : nd.getContent = content) (hne : content ≠ "")
    (hdig : ∀ c ∈ content.data, c.isDigit) :
    (parseText
        { pstyle := pstyle, fracStyle := fracS, highlight := hl,
          hasFS := hasFS,
          cfg := { displayedDigits := cfgD, showLength := showL } }
        (some nd) .tsNumber).value =
      if (content.length : Int) > displayedDigitsOf cfgD then
        strLeft content (min (displayedDigitsOf cfgD / 3) 30).toNat ++
          ("[" ++ toString ((content.length : Int) -
              2 * min (displayedDigitsOf cfgD / 3) 30) ++ " digits]") ++
          strRight content (min (displayedDigitsOf cfgD / 3) 30).toNat
      else content :=
  parseText_truncation_eq cfgD showL pstyle hl hasFS fracS nd content hco hne hdig

/-- Witness for C1 at the spec's example: cutoff 10, the 14-digit input
`12345678901234` displays as `123` + `[8 digits]` + `234`. -/
theorem claim1_numeric_truncation_witness :
    (parseText
        { pstyle := 0, fracStyle := .fcNormal, highlight := false,
          hasFS := false,
          cfg := { displayedDigits := some 10, showLength := none } }
        (some (txtNode "12345678901234")) .tsNumber).value =
      "123" ++ "[8 digits]" ++ "234" := by
  have h := claim1_numeric_truncation (some 10) none 0 false false .fcNormal
    (txtNode "12345678901234") "12345678901234" rfl (by decide) (by decide)
  rw [h]
  norm_num [displayedDigitsOf, strLeft, strRight]
  decide

/-- **C2** (counterexample): truncation is *not* display-only in this
code: with cutoff 10, the number-styled leaf `12345678901234` is built
with the truncated string as its one and only stored value — the
original serialized content is not retained anywhere in the cell. -/
theorem claim2_display_only_cex :
    (parseText
        { pstyle := 0, fracStyle := .fcNormal, highlight := false,
          hasFS := false,
          cfg := { displayedDigits := some 10, showLength := none } }
        (some (txtNode "12345678901234")) .tsNumber).value =
        "123[8 digits]234" ∧
    (parseText
        { pstyle := 0, fracStyle := .fcNormal, highlight := false,
          hasFS := false,
          cfg := { displayedDigits := some 10, showLength := none } }
        (some (txtNode "12345678901234")) .tsNumber).value ≠
      "12345678901234" := by
  constructor <;> decide

/-- **C2** (amended): for a number-styled digit-string leaf longer than
the cutoff, the value the built cell retains is the truncated display
string, which differs from the original serialized content — SetValue
receives only the truncated string (line 427), so the truncation *does*
alter the value available for re-export. -/
theorem claim2_truncation_alters_value (cfgD showL : Option Int)
    (pstyle : Int) (hl hasFS : Bool) (fracS : FracStyle) (nd : XmlNode)
    (content : String) (hco : nd.getContent = content) (hne : content ≠ "")
    (hdig : ∀ c ∈ content.data, c.isDigit)
    (hlong : (content.length : Int) > displayedDigitsOf cfgD) :
    (parseText
        { pstyle := pstyle, fracStyle := fracS, highlight := hl,
          hasFS := hasFS,
          cfg := { displayedDigits := cfgD, showLength := showL } }
        (some nd) .tsNumber).value =
      strLeft content (min (displayedDigitsOf cfgD / 3) 30).toNat ++
        ("[" ++ toString ((content.length : Int) -
            2 * min (displayedDigitsOf cfgD / 3) 30) ++ " digits]") ++
        strRight content (min (displayedDigitsOf cfgD / 3) 30).toNat ∧
    (parseText
        { pstyle := pstyle, fracStyle := fracS, highlight := hl,
          hasFS := hasFS,
          cfg := { displayedDigits := cfgD, showLength := showL } }
        (some nd) .tsNumber).value ≠ content := by
  have he := parseText_truncation_eq cfgD showL pstyle hl hasFS fracS nd content
    hco hne hdig
  rw [if_pos hlong] at he
  refine ⟨he, ?_⟩
  rw [he]
  intro heq
  have hmem : ('[' : Char) ∈ content.data := by
    rw [← heq]
    simp [data_append, strLeft]
  exact absurd (hdig '[' hmem) (by decide)

/-- Witness for the amended C2 at the concrete example. -/
theorem claim2_truncation_alters_value_witness :
    (parseText
        { pstyle := 0, fracStyle := .fcNormal, highlight := false,
          hasFS := false,
          cfg := { displayedDigits := some 10, showLength := none } }
        (some (txtNode "12345678901234")) .tsNumber).value ≠
      "12345678901234" :=
  (claim2_truncation_alters_value (some 10) none 0 false false .fcNormal
    (txtNode "12345678901234") "12345678901234" rfl (by decide) (by decide)
    (by decide)).2

/-- **C3** (code defect): with showLength selector 3 — mapped to 0,
meant to be "unlimited" — ParseLine substitutes the "too long"
placeholder for *every* input, never parsing anything: line 1036 reads
`(s.Length() < showLength) || (showLength=0)`, an assignment whose value
0 is false, and `Length() < 0` never holds.  The result does not even
depend on the XML-loading collaborator. -/
theorem claim3_unlimited_selector_bug (load : String → Option XmlNode)
    (cfgD : Option Int) (hasFS : Bool) (s : String) (style : Int) :
    parseLine load { displayedDigits := cfgD, showLength := some 3 } hasFS s
      style = .ok [tooLongCell] := by
  unfold parseLine
  have hsl : showLengthOf (some 3) = 0 := by simp [showLengthOf]
  rw [hsl]
  have hcond : ¬ (((strMap (fun c => if isCntrl c then Char.ofNat 0xFFFD else c)
      s).length : Int) < asSizeT 0) := by
    simp [asSizeT]
  rw [if_neg hcond]

/-- **C4**: with showLength selector 0 (cutoff 50,000) and an input of
50,001 characters, ParseLine yields exactly one placeholder cell with
the fixed "too long" message and a forced line break, independent of the
XML-loading collaborator (the input is never structurally parsed). -/
theorem claim4_oversized_placeholder (load : String → Option XmlNode)
    (cfgD : Option Int) (hasFS : Bool) (style : Int) (s : String)
    (h : s.length = 50001) :
    parseLine load { displayedDigits := cfgD, showLength := some 0 } hasFS s
      style = .ok [tooLongCell] := by
  unfold parseLine
  have hsl : showLengthOf (some 0) = 50000 := by simp [showLengthOf]
  rw [hsl]
  have hlen : (strMap (fun c => if isCntrl c then Char.ofNat 0xFFFD else c)
      s).length = 50001 := by rw [strMap_length, h]
  have hcond : ¬ (((strMap (fun c => if isCntrl c then Char.ofNat 0xFFFD else c)
      s).length : Int) < asSizeT 50000) := by
    rw [hlen]
    simp [asSizeT]
  rw [if_neg hcond]

/-- Witness for C4: a concrete 50,001-character input. -/
theorem claim4_oversized_placeholder_witness :
    parseLine (fun _ => none)
      { displayedDigits := none, showLength := some 0 } false
      (String.mk (List.replicate 50001 'a')) 0 = .ok [tooLongCell] :=
  claim4_oversized_placeholder (fun _ => none) none false 0
    (String.mk (List.replicate 50001 'a'))
    (by rw [String.length]; exact List.length_replicate _ _)

/-- **C9**: a block-level node of type `subsection` produces a
sub-subsection GroupBlock when its `sectioning_level` attribute is `4`,
and a plain subsection GroupBlock for every other value, the absent
attribute (default `0`) included. -/
theorem claim9_subsection_sectioning_level (ctx : PCtx) (nd : XmlNode)
    (g : Cell) (w : Nat)
    (htype : nd.getAttr "type" "text" = "subsection")
    (hres : parseCellTag ctx nd = .ok (some g, w)) :
    g.gtype = some (if nd.getAttr "sectioning_level" "0" = "4"
        then GType.gcSubsubsection else GType.gcSubsection) := by
  rw [parseCellTag.eq_def, htype] at hres
  simp only [] at hres
  norm_num at hres
  cases hloop : textTypeChildrenLoop ctx nd.getChildren {} with
  | crash =>
    by_cases hs : nd.getAttr "sectioning_level" "0" = "4" <;>
      simp [hs, hloop] at hres
  | ok accw =>
    obtain ⟨acc, w'⟩ := accw
    by_cases hs : nd.getAttr "sectioning_level" "0" = "4" <;>
      simp [hs, hloop] at hres <;>
      obtain ⟨hg, hw⟩ := hres <;>
      rw [← hg] <;>
      simp [hs, mkGroup, Cell.gtype, Cell.fields]

/-- Witness for C9: both sectioning levels at concrete childless
subsection nodes. -/
theorem claim9_subsection_sectioning_level_witness :
    (Cell.gtype (Cell.mk .group
      { value := "", ctype := MC_TYPE_GROUP, gtype := some .gcSubsubsection,
        gHidden := false } [[], []]) =
      some (if ("4" : String) = "4" then GType.gcSubsubsection
            else GType.gcSubsection)) ∧
    (Cell.gtype (Cell.mk .group
      { value := "", ctype := MC_TYPE_GROUP, gtype := some .gcSubsection,
        gHidden := false } [[], []]) =
      some (if ("0" : String) = "4" then GType.gcSubsubsection
            else GType.gcSubsection)) := by
  constructor
  · have h := claim9_subsection_sectioning_level {}
      (.mk .element "cell" [("type", "subsection"), ("sectioning_level", "4")]
        "" none none)
      (Cell.mk .group
        { value := "", ctype := MC_TYPE_GROUP, gtype := some .gcSubsubsection,
          gHidden := false } [[], []]) 0
      (by decide)
      (by rw [parseCellTag.eq_def]
          simp +decide [textTypeChildrenLoop, mkGroup])
    simpa using h
  · have h := claim9_subsection_sectioning_level {}
      (.mk .element "cell" [("type", "subsection")] "" none none)
      (Cell.mk .group
        { value := "", ctype := MC_TYPE_GROUP, gtype := some .gcSubsection,
          gHidden := false } [[], []]) 0
      (by decide)
      (by rw [parseCellTag.eq_def]
          simp +decide [textTypeChildrenLoop, mkGroup])
    simpa using h

/-- A `<v>` element with an `altCopy` attribute. -/
def vAltNode : XmlNode :=
  .mk .element "v" [("altCopy", "ac")] "" (some (txtNode "x")) none

/-- An unknown childless element (an unrecognised leaf tag). -/
def fooNode (nx : Option XmlNode) : XmlNode := .mk .element "foo" [] "" none nx

/-- **C7** (counterexample): in the `all = false` mode the loop breaks
(line 968) before the altCopy lines 987-988 run: the `<v altCopy="ac">`
node produces its cell, but the alternate copy text is *not* set. -/
theorem claim7_altcopy_cex :
    (firstCell (parseTag {} (some vAltNode) false)).map Cell.altCopy =
      some none := by
  simp [parseTag, nodeResult, parseText, parseTextStr, strMap, vAltNode,
    txtNode, firstCell, Cell.altCopy, Cell.fields, newTextCell]

/-- **C7** (amended): in the `all = true` mode, a node carrying an
`altCopy` attribute whose handler produces a cell gets the attribute
value written onto that cell (the head of the chain the node
produced). -/
theorem claim7_altcopy_all_true (ctx : PCtx) (nd : XmlNode) (ac : String)
    (c : Cell) (cs : List Cell) (w : Nat)
    (hnext : nd.getNext = none)
    (hac : nd.getAttrOpt "altCopy" = some ac)
    (hres : nodeResult ctx nd = .ok (c :: cs, w)) :
    parseTag ctx (some nd) true =
      .ok ((c.mapFields (fun f => { f with altCopy := some ac })) :: cs,
        0, w) := by
  simp only [parseTag.eq_def, parseLoop.eq_def, hres, hnext, hac]
  simp [stepDispatch, stepAdvance, stepAltCopy, hac, hnext, setAltCopyAt,
    parseLoop]

/-- Witness for the amended C7 at the concrete `<v altCopy="ac">x</v>`
node. -/
theorem claim7_altcopy_all_true_witness :
    parseTag {} (some vAltNode) true =
      .ok ([Cell.mk .textCell
        { value := "x", ctype := MC_TYPE_DEFAULT, style := .tsVariable,
          altCopy := some "ac" } []], 0, 0) := by
  have h := claim7_altcopy_all_true {} vAltNode "ac"
    (Cell.mk .textCell
      { value := "x", ctype := MC_TYPE_DEFAULT, style := .tsVariable } [])
    [] 0 rfl (by decide)
    (by simp [nodeResult, parseText, parseTextStr, strMap, vAltNode, txtNode,
      newTextCell, MC_TYPE_DEFAULT])
  simpa [Cell.mapFields] using h

/-- **C8** (counterexample): `ParseTag(node, all=false)` breaks after
the *first node*, produced cell or not: on the sibling sequence
`<foo/><v>x</v>` — where the second node produces a cell — the call
returns nothing instead of the first produced construct. -/
theorem claim8_stop_after_first_cex :
    parseTag {} (some (fooNode (some (vNode "x" none)))) false =
      .ok ([], 0, 0) ∧
    cellsOf (parseTag {} (some (vNode "x" none)) false) =
      some [Cell.mk .textCell
        { value := "x", ctype := MC_TYPE_DEFAULT, style := .tsVariable } []] := by
  constructor
  · simp [parseTag, nodeResult, fooNode, vNode]
  · simp [parseTag, nodeResult, parseText, parseTextStr, strMap, vNode,
      txtNode, newTextCell, cellsOf, MC_TYPE_DEFAULT]

/-- **C8** (amended): with `all = false` the call processes only its
first node — the result never depends on the following siblings, and is
null whenever that first node yields nothing. -/
theorem claim8_first_node_only (ctx : PCtx) (nd : XmlNode)
    (x : Option XmlNode) :
    parseTag ctx (some (nd.setNext x)) false = parseTag ctx (some nd) false := by
  rw [parseTag.eq_def, parseTag.eq_def]
  simp only []
  rw [nodeResult_setNext]

/-- An `<r>` wrapper holding one unrecognised leaf tag. -/
def rFooNode : XmlNode := .mk .element "r" [] "" (some (fooNode none)) none

/-- **C6** (counterexample): one top-level `ParseTag(…, all=true)` call
on `<r><foo/></r>` raises the "unknown tag" warning *twice*: once inside
the nested recursive call for `<r>`'s children (which runs with its own
freshly armed warning flag) and once in the outer loop, because the `r`
node itself produced no cell. -/
theorem claim6_warning_cex :
    totalWarnsOf (parseTag {} (some rFooNode) true) = 2 := by
  simp [parseTag, parseLoop, nodeResult, stepDispatch, stepAdvance,
    stepAltCopy, totalWarnsOf, rFooNode, fooNode]

/-- **C6** (amended): each single ParseTag invocation issues at most one
warning from its own sibling loop (the `warning` flag is one-shot per
call); the duplication observed in the counterexample comes only from
nested recursive invocations, each arriving with its own flag. -/
theorem claim6_one_warning_per_loop (ctx : PCtx) (n? : Option XmlNode)
    (all : Bool) :
    ownWarnsOf (parseTag ctx n? all) ≤ 1 := by
  cases all with
  | false =>
    rw [parseTag.eq_def]
    cases n? with
    | none => simp [ownWarnsOf]
    | some nd =>
      simp only []
      cases h : nodeResult ctx nd with
      | crash => simp [h, ownWarnsOf]
      | ok rw0 => obtain ⟨r, w⟩ := rw0; simp [h, ownWarnsOf]
  | true =>
    rw [parseTag.eq_def]
    simp only []
    cases h : parseLoop ctx n? {} with
    | crash => simp [ownWarnsOf]
    | ok st =>
      have hb := parseLoop_warnBound ctx (sizeOf n?) n? rfl {} st h
      simp only [ownWarnsOf]
      split_ifs at hb <;> simp at hb ⊢ <;> omega

/-- **C10**: the text-leaf constructors return a cell for every input —
a NULL node or empty content leaves the fresh TextCell with its empty
value — and hence a `v`/`n`/`t` leaf tag always contributes exactly one
cell to the chain and never takes the malformed-composite (warning)
path, in either parse mode. -/
theorem claim10_text_leaves_never_null (ctx : PCtx) (style : TextStyle)
    (nd : XmlNode) (all : Bool)
    (helem : nd.getType = .element)
    (hname : nd.getName = "v" ∨ nd.getName = "n" ∨ nd.getName = "t")
    (hnext : nd.getNext = none) :
    ((parseText ctx none style).value = "" ∧
     (parseCharCode ctx none style).value = "" ∧
     (parseText ctx (some (txtNode "")) style).value = "" ∧
     (parseCharCode ctx (some (txtNode "")) style).value = "") ∧
    ∃ c, parseTag ctx (some nd) all = .ok ([c], 0, 0) := by
  refine ⟨⟨?_, ?_, ?_, ?_⟩, ?_⟩
  · simp [parseText, newTextCell, Cell.value, Cell.fields]
  · simp [parseCharCode, newTextCell, Cell.value, Cell.fields]
  · simp [parseText, parseTextStr, txtNode, newTextCell, Cell.value,
      Cell.fields]
  · simp [parseCharCode, parseCharCodeStr, txtNode, newTextCell, Cell.value,
      Cell.fields]
  have hnr : ∃ c0, nodeResult ctx nd = .ok ([c0], 0) := by
    rcases hname with h | h | h
    · exact ⟨parseText ctx nd.getChildren .tsVariable,
        by rw [nodeResult.eq_def]; simp +decide [helem, h]⟩
    · exact ⟨parseText ctx nd.getChildren .tsNumber,
        by rw [nodeResult.eq_def]; simp +decide [helem, h]⟩
    · exact ⟨parseText ctx nd.getChildren
          (if nd.getAttr "type" "" = "error" then .tsError else .tsDefault),
        by rw [nodeResult.eq_def]; simp +decide [helem, h]⟩
  obtain ⟨c0, hnr⟩ := hnr
  cases all with
  | false =>
    exact ⟨c0, by rw [parseTag.eq_def]; simp [hnr]⟩
  | true =>
    cases hac : nd.getAttrOpt "altCopy" with
    | none =>
      refine ⟨c0, ?_⟩
      simp only [parseTag.eq_def, parseLoop.eq_def, hnr, hnext, hac]
      simp [stepDispatch, stepAdvance, stepAltCopy, hac, hnext, parseLoop]
    | some ac =>
      refine ⟨c0.mapFields (fun f => { f with altCopy := some ac }), ?_⟩
      simp only [parseTag.eq_def, parseLoop.eq_def, hnr, hnext, hac]
      simp [stepDispatch, stepAdvance, stepAltCopy, hac, hnext, setAltCopyAt,
        parseLoop]

/-- A malformed fraction node: one child only. -/
def fracBad (attrs : List (String × String)) (nx : Option XmlNode) : XmlNode :=
  .mk .element "f" attrs "" (some (vNode "x" none)) nx

/-- **C5** (counterexample): the claim's "builder continues with the
remaining siblings" fails when the malformed composite carries an
`altCopy` attribute: with no cell produced yet, lines 987-988 dereference
the NULL `cell` pointer and the parse crashes instead of continuing to
the `<v>y</v>` sibling (which, alone, parses fine). -/
theorem claim5_malformed_composites_cex :
    parseTag {} (some (fracBad [("altCopy", "z")] (some (vNode "y" none))))
        true = .crash ∧
    cellsOf (parseTag {} (some (vNode "y" none)) true) =
      some [Cell.mk .textCell
        { value := "y", ctype := MC_TYPE_DEFAULT, style := .tsVariable } []] := by
  constructor
  · simp [parseTag, parseLoop, nodeResult, parseFracTag, parseText,
      parseTextStr, strMap, fracBad, vNode, txtNode, stepDispatch,
      stepAdvance, stepAltCopy, newTextCell]
  · simp [parseTag, parseLoop, nodeResult, parseText, parseTextStr, strMap,
      vNode, txtNode, stepDispatch, stepAdvance, stepAltCopy, newTextCell,
      cellsOf, MC_TYPE_DEFAULT]

/-- **C5** (amended): every composite handler given fewer than its
required children returns NULL (releasing the partial cell), and — for a
malformed node that carries no `altCopy` attribute — the sibling loop
continues: the chain the call returns equals the chain the remaining
siblings alone produce. -/
theorem claim5_malformed_composites (ctx : PCtx) (nd : XmlNode) :
    (∀ r, chainLength nd.getChildren < 2 → parseFracTag ctx nd = .ok r →
       r.1 = none) ∧
    (∀ r, chainLength nd.getChildren < 2 → parseSupTag ctx nd = .ok r →
       r.1 = none) ∧
    (∀ r, chainLength nd.getChildren < 2 → parseSubTag ctx nd = .ok r →
       r.1 = none) ∧
    (∀ r, chainLength nd.getChildren < 3 → parseSubSupTag ctx nd = .ok r →
       r.1 = none) ∧
    (∀ r, chainLength nd.getChildren < 2 → parseFunTag ctx nd = .ok r →
       r.1 = none) ∧
    (∀ r, chainLength nd.getChildren < 3 → parseLimitTag ctx nd = .ok r →
       r.1 = none) ∧
    (∀ r, chainLength nd.getChildren < 3 → parseSumTag ctx nd = .ok r →
       r.1 = none) ∧
    (∀ r, nd.attrs = [] → chainLength nd.getChildren < 4 →
       parseIntTag ctx nd = .ok r → r.1 = none) ∧
    (∀ r, nd.attrs ≠ [] → chainLength nd.getChildren < 2 →
       parseIntTag ctx nd = .ok r → r.1 = none) ∧
    (∀ r, chainLength nd.getChildren < 2 → parseAtTag ctx nd = .ok r →
       r.1 = none) ∧
    (∀ r, chainLength nd.getChildren < 2 → parseDiffTag ctx nd = .ok r →
       r.1 = none) ∧
    (∀ (w : Nat) (rest : Option XmlNode),
       nodeResult ctx nd = .ok ([], w) →
       nd.getAttrOpt "altCopy" = none →
       cellsOf (parseTag ctx (some (nd.setNext rest)) true) =
         cellsOf (parseTag ctx rest true)) := by
  refine ⟨?_, ?_, ?_, ?_, ?_, ?_, ?_, ?_, ?_, ?_, ?_, ?_⟩
  · intro r hlen hres
    rw [parseFracTag.eq_def] at hres
    repeat' split at hres
    all_goals
      first
      | exact PRes.noConfusion hres
      | (cases hres; rfl)
      | (exfalso; simp_all [chainLength_some]; try omega)
  · intro r hlen hres
    rw [parseSupTag.eq_def] at hres
    repeat' split at hres
    all_goals
      first
      | exact PRes.noConfusion hres
      | (cases hres; rfl)
      | (exfalso; simp_all [chainLength_some]; try omega)
  · intro r hlen hres
    rw [parseSubTag.eq_def] at hres
    repeat' split at hres
    all_goals
      first
      | exact PRes.noConfusion hres
      | (cases hres; rfl)
      | (exfalso; simp_all [chainLength_some]; try omega)
  · intro r hlen hres
    rw [parseSubSupTag.eq_def] at hres
    repeat' split at hres
    all_goals
      first
      | exact PRes.noConfusion hres
      | (cases hres; rfl)
      | (exfalso; simp_all [chainLength_some]; try omega)
  · intro r hlen hres
    rw [parseFunTag.eq_def] at hres
    repeat' split at hres
    all_goals
      first
      | exact PRes.noConfusion hres
      | (cases hres; rfl)
      | (exfalso; simp_all [chainLength_some]; try omega)
  · intro r hlen hres
    rw [parseLimitTag.eq_def] at hres
    repeat' split at hres
    all_goals
      first
      | exact PRes.noConfusion hres
      | (cases hres; rfl)
      | (exfalso; simp_all [chainLength_some]; try omega)
  · intro r hlen hres
    rw [parseSumTag.eq_def] at hres
    repeat' split at hres
    all_goals
      first
      | exact PRes.noConfusion hres
      | (cases hres; rfl)
      | (exfalso; simp_all [chainLength_some]; try omega)
  · intro r hattr hlen hres
    rw [parseIntTag.eq_def] at hres
    repeat' split at hres
    all_goals
      first
      | exact PRes.noConfusion hres
      | (cases hres; rfl)
      | (exfalso; simp_all [chainLength_some]; try omega)
  · intro r hattr hlen hres
    rw [parseIntTag.eq_def] at hres
    repeat' split at hres
    all_goals
      first
      | exact PRes.noConfusion hres
      | (cases hres; rfl)
      | (exfalso; simp_all [chainLength_some]; try omega)
  · intro r hlen hres
    rw [parseAtTag.eq_def] at hres
    repeat' split at hres
    all_goals
      first
      | exact PRes.noConfusion hres
      | (cases hres; rfl)
      | (exfalso; simp_all [chainLength_some]; try omega)
  · intro r hlen hres
    rw [parseDiffTag.eq_def] at hres
    repeat' split at hres
    all_goals
      first
      | exact PRes.noConfusion hres
      | (cases hres; rfl)
      | (exfalso; simp_all [chainLength_some]; try omega)
  · intro w rest hnr hac
    have hsetnr : nodeResult ctx (nd.setNext rest) = .ok ([], w) := by
      rw [nodeResult_setNext]; exact hnr
    have hsetac : (nd.setNext rest).getAttrOpt "altCopy" = none := by
      cases nd; simpa using hac
    have hsetnext : (nd.setNext rest).getNext = rest := by
      cases nd; simp
    rw [cellsOf_parseTag_true, cellsOf_parseTag_true]
    conv_lhs => rw [parseLoop.eq_def]
    simp only [hsetnr, hsetac, hsetnext, stepDispatch, stepAdvance,
      stepAltCopy, List.isEmpty]
    exact congrArg cellsOfCore (parseLoop_core ctx (sizeOf rest) rest rfl _ _ rfl)

/-- Witness for the amended C5: a one-child `<f>` node (no altCopy)
yields no cell, and prepending it to a `<v>y</v>` sibling leaves the
parsed chain exactly that of `<v>y</v>` alone. -/
theorem claim5_malformed_composites_witness :
    (((none : Option Cell), (0 : Nat)).1 = none) ∧
    cellsOf (parseTag {} (some ((XmlNode.mk .element "f" [] ""
        (some (vNode "x" none)) none).setNext (some (vNode "y" none)))) true) =
      cellsOf (parseTag {} (some (vNode "y" none)) true) := by
  constructor
  · exact (claim5_malformed_composites {}
      (.mk .element "f" [] "" (some (vNode "x" none)) none)).1
      (none, 0)
      (by simp [chainLength_some, chainLength_none, vNode])
      (by simp [parseFracTag, parseTag, nodeResult, parseText, parseTextStr,
        strMap, vNode, txtNode, newTextCell])
  · exact (claim5_malformed_composites {}
      (.mk .element "f" [] "" (some (vNode "x" none)) none)).2.2.2.2.2.2.2.2.2.2.2
      0 (some (vNode "y" none))
      (by simp [nodeResult, parseFracTag, parseTag, parseText, parseTextStr,
        strMap, vNode, txtNode, newTextCell])
      rfl

/-- Witness for C10 at a childless `<v/>` element. -/
theorem claim10_text_leaves_never_null_witness :
    (((parseText {} none .tsDefault).value = "" ∧
      (parseCharCode {} none .tsDefault).value = "" ∧
      (parseText {} (some (txtNode "")) .tsDefault).value = "" ∧
      (parseCharCode {} (some (txtNode "")) .tsDefault).value = "") ∧
     ∃ c, parseTag {} (some (.mk .element "v" [] "" none none)) true =
        .ok ([c], 0, 0)) :=
  claim10_text_leaves_never_null {} .tsDefault
    (.mk .element "v" [] "" none none) true rfl (Or.inl rfl) rfl

end MathParserModel
